import Mathlib

/-!
Verification of the cephadm rolling-upgrade controller
(`src/pybind/mgr/cephadm/upgrade.py`) against its specification.

The Python module is shallowly embedded: pure helpers become Lean
functions, the stateful controller becomes explicit state passing over a
`World` record, and the orchestrator host environment (cluster RPC,
key-value store, host agent, daemon cache) is an `Env` record of oracle
functions, reflecting the external-interface contracts of the spec.
Python exceptions are modelled with `Except PyErr`; Python string/int
truthiness is made explicit at each use site.
-/

namespace CephadmUpgrade

/-- Python exceptions that can escape the functions under study.
`orch` is `OrchestratorError`; the others are builtin exceptions that
particular call sites can raise uncaught. -/
inductive PyErr where
  | orch (msg : String)
  | valueError
  | assertionError
  | indexError
  deriving Repr, DecidableEq

/-- `int(s)` for a plain decimal literal with optional sign, `none` when
Python would raise `ValueError`.  (Python also tolerates surrounding
whitespace and inner underscores; the strings fed to `int` here are
slices of version strings, where that generality is never exercised.)
Implemented over the character list so that concrete inputs reduce in
the kernel. -/
def pyInt (s : String) : Option Int :=
  let cs := s.toList
  let core : List Char :=
    match cs with
    | '-' :: rest => rest
    | '+' :: rest => rest
    | _ => cs
  if core = [] then none
  else if core.all Char.isDigit then
    let n : Nat := core.foldl (fun a c => a * 10 + (c.toNat - 48)) 0
    match cs with
    | '-' :: _ => some (-(n : Int))
    | _ => some (n : Int)
  else none

/-- Worker for string splitting: scan with explicit fuel (the input
length bounds the number of steps) so the recursion is structural and
concrete inputs reduce in the kernel. -/
def splitGo (sep : List Char) : Nat → List Char → List Char → List (List Char)
  | 0, s, acc => [acc.reverse ++ s]
  | _ + 1, [], acc => [acc.reverse]
  | fuel + 1, c :: rest, acc =>
    if sep.isPrefixOf (c :: rest) then
      acc.reverse :: splitGo sep fuel ((c :: rest).drop sep.length) []
    else splitGo sep fuel rest (c :: acc)

/-- Python `s.split(sep)` for a non-empty separator. -/
def pySplitAll (s sep : String) : List String :=
  (splitGo sep.toList (s.toList.length + 1) s.toList []).map
    (fun l => String.mk l)

/-- `String.intercalate`, reimplemented structurally. -/
def joinSep (sep : String) : List String → String
  | [] => ""
  | [x] => x
  | x :: xs => x ++ sep ++ joinSep sep xs

/-- Python `s.split(sep, maxsplit)`: at most `maxsplit` splits, the
remainder glued back together as the final element. -/
def pySplit (s sep : String) (maxsplit : Nat) : List String :=
  let ps := pySplitAll s sep
  if ps.length ≤ maxsplit + 1 then ps
  else ps.take maxsplit ++ [joinSep sep (ps.drop maxsplit)]

/-- Python `s.startswith(pre)`, reduced structurally. -/
def pyStartsWith (s pre : String) : Bool :=
  pre.toList.isPrefixOf s.toList

/-- Python `any(x in ys for x in xs)`. -/
def anyMem (xs ys : List String) : Bool :=
  xs.any (fun x => ys.contains x)

/-- Insert-or-overwrite for a Python dict modelled as an association
list: an existing key keeps its position, a new key goes to the end. -/
def dictPut (m : List (String × String)) (k v : String) : List (String × String) :=
  if m.any (fun p => p.1 = k) then
    m.map (fun p => if p.1 = k then (k, v) else p)
  else m ++ [(k, v)]

/-- `UpgradeState.__init__`: the persisted record describing an active
or paused upgrade.  `target_name` is the Python `_target_name`. -/
structure UpgradeState where
  target_name : String
  progress_id : String
  target_id : Option String := none
  target_digests : Option (List String) := none
  target_version : Option String := none
  error : Option String := none
  paused : Bool := false
  fs_original_max_mds : Option (List (String × Int)) := none
  deriving Repr, DecidableEq

/-- The JSON object shape handled by `UpgradeState.to_json` /
`UpgradeState.from_json`: each known key is either absent (outer `none`)
or present with a possibly-null value.  `repo_digest` is the legacy
key translated by `from_json`. -/
structure StateJson where
  target_name : Option String := none
  progress_id : Option String := none
  target_id : Option (Option String) := none
  target_digests : Option (Option (List String)) := none
  target_version : Option (Option String) := none
  error : Option (Option String) := none
  paused : Option Bool := none
  fs_original_max_mds : Option (Option (List (String × Int))) := none
  repo_digest : Option String := none
  deriving Repr, DecidableEq

namespace StateJson

/-- `if data:` — a dict is falsy iff it has no keys. -/
def isEmpty (d : StateJson) : Bool :=
  d.target_name.isNone && d.progress_id.isNone && d.target_id.isNone &&
  d.target_digests.isNone && d.target_version.isNone && d.error.isNone &&
  d.paused.isNone && d.fs_original_max_mds.isNone && d.repo_digest.isNone

end StateJson

namespace UpgradeState

/-- `UpgradeState.to_json`. -/
def to_json (s : UpgradeState) : StateJson :=
  { target_name := some s.target_name
    progress_id := some s.progress_id
    target_id := some s.target_id
    target_digests := some s.target_digests
    target_version := some s.target_version
    fs_original_max_mds := some s.fs_original_max_mds
    error := some s.error
    paused := some s.paused
    repo_digest := none }

/-- `UpgradeState.from_json`: empty data yields `none`; a legacy
`repo_digest` key is popped and rewritten to `target_digests`; the
remaining keys are passed as keyword arguments to the constructor,
which raises `TypeError` (modelled `.error`) when a required argument
(`target_name`, `progress_id`) is absent.  The constructor applies
`paused or False`. -/
def from_json (d : StateJson) : Except Unit (Option UpgradeState) :=
  if d.isEmpty then .ok none
  else
    let tds : Option (Option (List String)) :=
      match d.repo_digest with
      | some rd => some (some [rd])
      | none => d.target_digests
    match d.target_name, d.progress_id with
    | some tn, some pid =>
        .ok (some
          { target_name := tn
            progress_id := pid
            target_id := (d.target_id).getD none
            target_digests := tds.getD none
            target_version := (d.target_version).getD none
            error := (d.error).getD none
            paused := (d.paused).getD false
            fs_original_max_mds := (d.fs_original_max_mds).getD none })
    | _, _ => .error ()

end UpgradeState

/-- `normalize_image_digest`: prefix `docker.io/` when the first
`/`-segment has no dot or there are fewer than three segments. -/
def normalize_image_digest (digest : String) (_default_registry : String) : String :=
  let bits := pySplitAll digest "/"
  if !(bits.headD "").toList.contains '.' || bits.length < 3 then
    "docker.io/" ++ digest
  else digest

/-- A daemon as read from the orchestrator's inventory cache
(`DaemonDescription`; modelled from the spec's external-interface
contract, the orchestrator module not being part of the source under
study).  `running` is `status == DaemonDescriptionStatus.running`;
`service_name` is the precomputed `d.service_name()`. -/
structure DaemonDesc where
  daemon_type : String
  daemon_id : String
  hostname : String
  running : Bool := true
  is_self : Bool := false
  container_image_name : Option String := none
  container_image_id : Option String := none
  container_image_digests : Option (List String) := none
  deployed_by : Option (List String) := none
  service_name : String := ""
  deriving Repr, DecidableEq

/-- `d.name()`. -/
def DaemonDesc.name (d : DaemonDesc) : String :=
  d.daemon_type ++ "." ++ d.daemon_id

/-- One active/standby MDS entry of `fs['info']`. -/
structure MdsInfo where
  name : String
  state : String
  deriving Repr, DecidableEq

/-- One filesystem of the cluster's `fs_map`. -/
structure FsInfo where
  id : String
  fs_name : String
  max_mds : Int
  info : List MdsInfo := []
  deriving Repr, DecidableEq

/-- Modelled from the spec: the fixed daemon-class order (monitors,
then managers, then storage, then metadata, then gateways, then the
monitoring stack).  The constant lives in `cephadm.utils`, outside the
source under study. -/
def CEPH_UPGRADE_ORDER : List String :=
  ["mon", "mgr", "osd", "mds", "rgw", "rbd-mirror", "cephfs-mirror",
   "iscsi", "nfs", "prometheus", "grafana", "alertmanager", "node-exporter"]

/-- Modelled from the spec: the monitoring-stack daemon classes, exempt
from digest-equality gating (`cephadm.utils`, outside the source under
study). -/
def MONITORING_STACK_TYPES : List String :=
  ["prometheus", "grafana", "alertmanager", "node-exporter"]

/-- Modelled from the spec: map a release name to its major ordinal
(`argonaut` is major 1), as used for `require_osd_release`
(`cephadm.utils.ceph_release_to_major`, outside the source under
study). -/
def ceph_release_to_major (release : String) : Int :=
  ((release.toList.headD 'a').toNat : Int) - ('a'.toNat : Int) + 1

/-- Modelled from the spec: the configuration section owning a daemon
class's `container_image` setting (`cephadm.utils.name_to_config_section`,
outside the source under study). -/
def name_to_config_section (name : String) : String :=
  if name ∈ ["rgw", "rbd-mirror", "nfs", "crash", "iscsi"] then
    "client." ++ name
  else if name ∈ ["mon", "osd", "mds", "mgr", "client"] then name
  else "mon"

/-- `CephadmUpgrade.UPGRADE_ERRORS`: the five upgrade alert codes. -/
def UPGRADE_ERRORS : List String :=
  ["UPGRADE_NO_STANDBY_MGR", "UPGRADE_FAILED_PULL", "UPGRADE_REDEPLOY_DAEMON",
   "UPGRADE_BAD_TARGET_VERSION", "UPGRADE_EXCEPTION"]

/-- Cluster RPCs and configuration writes issued through the
orchestrator host (`check_mon_command`, `set_container_image`). -/
inductive MonCmd where
  | configDump
  | quorumStatus
  | versions
  | fsSet (fs_name val : String)
  | configRm (who : String)
  | osdRequire (release : String)
  | setContainerImage (sect image : String)
  deriving Repr, DecidableEq

/-- Externally visible side effects of the controller, in program
order. -/
inductive Effect where
  | saveStore (s : Option StateJson)
  | setHealth (codes : List String)
  | progressUpdate (id msg : String) (num den : Nat)
  | progressComplete (id : String)
  | eventSet
  | monCmd (c : MonCmd)
  | okProbe (service daemon_id : String)
  | inspectHost (host image : String)
  | pullHost (host image : String)
  | redeploy (daemon_type daemon_id : String) (image : Option String)
  | failover
  | sleep (secs : Nat)
  deriving Repr, DecidableEq

/-- The controller-owned mutable state: the in-memory `UpgradeState`,
the persisted key-value entry, the registered upgrade alert codes of
`mgr.health_checks`, and the ordered trace of external side effects. -/
structure World where
  ctl : Option UpgradeState := none
  store : Option StateJson := none
  health : List String := []
  trace : List Effect := []
  deriving Repr, DecidableEq

/-- The orchestrator host environment for one tick, per the spec's
external-interface contracts (§6): cluster maps, the daemon inventory
cache, and the host-agent / per-service operations as oracles.
Oracles return structured data (the JSON layer of `mon_command` is not
re-modelled); probe oracles take an attempt counter so that repeated
probes may answer differently. -/
structure Env where
  mode : String := "root"
  container_image_base : String := "docker.io/ceph/ceph"
  default_registry : String := "docker.io"
  version : String := ""
  mon_min : Int := 0
  require_osd_release : String := "argonaut"
  use_repo_digest : Bool := false
  lookup_release_name : Int → String := fun _ => ""
  daemons : List DaemonDesc := []
  daemon_is_self : String → String → Bool := fun _ _ => false
  have_local_config_map : Bool := true
  mds_metadata : List (String × Option String) := []
  fs_map : List FsInfo := []
  quorum_mons : List String := []
  config_opts : List (String × String × String) := []
  versions_json : List (String × List (String × Int)) := []
  fresh_uuid : String := "uuid-0"
  get_container_image_info : String →
      Except String (String × String × List String) := fun _ => .error "no agent"
  inspect_image : String → String → List String × Int := fun _ _ => ([], 1)
  pull_image : String → String → List String × Int := fun _ _ => ([], 1)
  daemon_action_redeploy : DaemonDesc → Option String → Except String Unit :=
    fun _ _ => .ok ()
  fail_over : Except String Unit := .ok ()
  ok_to_stop : String → String → Nat → List String → Int × List String :=
    fun _ _ _ _ => (1, [])

/-- `CephadmUpgrade.target_image`: the authoritative image reference,
`target_digests[0]` when digest addressing is preferred and digests are
known, otherwise the submitted `_target_name`. -/
def target_image (env : Env) (st : UpgradeState) : String :=
  if !env.use_repo_digest then st.target_name
  else
    match st.target_digests with
    | some (d :: _) => d
    | _ => st.target_name

/-- The trailing `min_mon_release` / `require_osd_release` prerequisite
checks of `_check_target_version` (lines 164–177). -/
def check_min_releases (env : Env) (major : String) (ma : Int) :
    Except PyErr (Option String) :=
  if env.mon_min < ma - 2 then
    .ok (some ("min_mon_release (" ++ toString env.mon_min ++ ") < target "
      ++ major ++ " - 2; first complete an upgrade to an earlier release"))
  else
    let osd_min := ceph_release_to_major env.require_osd_release
    if osd_min < ma - 2 then
      .ok (some ("require_osd_release (" ++ env.require_osd_release ++ " or "
        ++ toString osd_min ++ ") < target " ++ major
        ++ " - 2; first complete an upgrade to an earlier release"))
    else .ok none

/-- `_check_target_version`: `.ok (some reason)` is a rejection,
`.ok none` acceptance.  Only the 3-way split and `int(minor)` are inside
the Python `try/except ValueError`; a negative minor trips the bare
`assert` (AssertionError), and `int(major)`, the current-version
parsing, and `int(current_minor)` raise uncaught `ValueError` /
`IndexError` when malformed. -/
def check_target_version (env : Env) (version : String) :
    Except PyErr (Option String) :=
  match pySplit version "." 2 with
  | [major, minor, _patch] =>
      (match pyInt minor with
       | none => .ok (some "version must be in the form X.Y.Z (e.g., 15.2.3)")
       | some mi =>
         if mi < 0 then .error .assertionError
         else
           match pyInt major with
           | none => .error .valueError
           | some ma =>
             if ma < 15 ∨ (ma = 15 ∧ mi < 2) then
               .ok (some "cephadm only supports octopus (15.2.0) or later")
             else
               match ((pySplitAll env.version "ceph version ").drop 1).head? with
               | none => .error .indexError
               | some current_version =>
                 match pySplit ((pySplitAll current_version "-").headD "") "." 2 with
                 | [cmajor, cminor, _] =>
                     (match pyInt cmajor with
                      | none => .error .valueError
                      | some cma =>
                        if cma < ma - 2 then
                          .ok (some ("ceph can only upgrade 1 or 2 major versions at a time; "
                            ++ current_version ++ " -> " ++ version
                            ++ " is too big a jump"))
                        else if cma > ma then
                          .ok (some ("ceph cannot downgrade major versions (from "
                            ++ current_version ++ " to " ++ version ++ ")"))
                        else if cma = ma then
                          match pyInt cminor with
                          | none => .error .valueError
                          | some cmi =>
                            if cmi > mi then
                              .ok (some ("ceph cannot downgrade to a "
                                ++ (if minor = "1" then "rc" else "dev")
                                ++ " release"))
                            else check_min_releases env major ma
                        else check_min_releases env major ma)
                 | _ => .error .valueError
       )
  | _ => .ok (some "version must be in the form X.Y.Z (e.g., 15.2.3)")

/-- `_save_upgrade_state`: delete the key when no state, else write the
JSON form. -/
def save_upgrade_state (w : World) : World :=
  match w.ctl with
  | none => { w with store := none, trace := w.trace ++ [.saveStore none] }
  | some st =>
      { w with store := some st.to_json,
               trace := w.trace ++ [.saveStore (some st.to_json)] }

/-- `_clear_upgrade_health_checks`: delete the five upgrade alert codes
and publish. -/
def clear_upgrade_health_checks (w : World) : World :=
  let h := w.health.filter (fun k => !UPGRADE_ERRORS.contains k)
  { w with health := h, trace := w.trace ++ [.setHealth h] }

/-- `_fail_upgrade`: a no-op when the state was already cleared;
otherwise record `error`, pause, persist, and register the alert code
(the alert's severity/detail payload is not modelled — only the code's
presence is observable to the claims). -/
def fail_upgrade (alert_id summary : String) (w : World) : World :=
  match w.ctl with
  | none => w
  | some st =>
      let st2 := { st with error := some (alert_id ++ ": " ++ summary),
                           paused := true }
      let w2 := save_upgrade_state { w with ctl := some st2 }
      let h := if w2.health.contains alert_id then w2.health
               else w2.health ++ [alert_id]
      { w2 with health := h, trace := w2.trace ++ [.setHealth h] }

/-- `_update_upgrade_progress`: ensure a `progress_id` (persisting when
one is generated) and publish a progress event.  The fraction is kept
as the exact pair `num/den` rather than a float; the `assert` on a
missing state is unreachable from the call sites and modelled as the
identity. -/
def update_progress (env : Env) (num den : Nat) (w : World) : World :=
  match w.ctl with
  | none => w
  | some st =>
      let msg (s : UpgradeState) : String :=
        "Upgrade to " ++
          (match s.target_version with
           | some v => if v ≠ "" then v else target_image env s
           | none => target_image env s)
      if st.progress_id = "" then
        let st2 := { st with progress_id := env.fresh_uuid }
        let w2 := save_upgrade_state { w with ctl := some st2 }
        { w2 with trace := w2.trace ++ [.progressUpdate st2.progress_id (msg st2) num den] }
      else
        { w with trace := w.trace ++ [.progressUpdate st.progress_id (msg st) num den] }

/-- `get_daemons_by_type('mgr')` restricted to running daemons, as
counted by `upgrade_start`. -/
def running_mgr_count (env : Env) : Nat :=
  (env.daemons.filter (fun d => d.daemon_type = "mgr" && d.running)).length

/-- The `target_name` `upgrade_start` computes for its arguments (the
version branch takes precedence; empty strings are falsy). -/
def start_target_name (env : Env) (image version : String) : String :=
  if version ≠ "" then env.container_image_base ++ ":v" ++ version
  else normalize_image_digest image env.default_registry

/-- `upgrade_start`. -/
def upgrade_start (env : Env) (image version : String) (w : World) :
    Except PyErr String × World :=
  if env.mode ≠ "root" then
    (.error (.orch ("upgrade is not supported in " ++ env.mode ++ " mode")), w)
  else
    let checked : Except PyErr String :=
      if version ≠ "" then
        match check_target_version env version with
        | .error e => .error e
        | .ok (some version_error) => .error (.orch version_error)
        | .ok none => .ok (env.container_image_base ++ ":v" ++ version)
      else if image ≠ "" then
        .ok (normalize_image_digest image env.default_registry)
      else .error (.orch "must specify either image or version")
    match checked with
    | .error e => (.error e, w)
    | .ok target_name =>
      match w.ctl with
      | some st =>
          if st.target_name ≠ target_name then
            (.error (.orch ("Upgrade to " ++ st.target_name ++ " (not "
              ++ target_name ++ ") already in progress")), w)
          else if st.paused then
            let st2 := { st with paused := false }
            (.ok ("Resumed upgrade to " ++ target_image env st2),
             save_upgrade_state { w with ctl := some st2 })
          else
            (.ok ("Upgrade to " ++ target_image env st ++ " in progress"), w)
      | none =>
          if running_mgr_count env < 2 then
            (.error (.orch "Need at least 2 running mgr daemons for upgrade"), w)
          else
            let st : UpgradeState :=
              { target_name := target_name, progress_id := env.fresh_uuid }
            let w1 := { w with ctl := some st }
            let w2 := update_progress env 0 1 w1
            let w3 := clear_upgrade_health_checks (save_upgrade_state w2)
            (.ok ("Initiating upgrade to " ++ target_name),
             { w3 with trace := w3.trace ++ [.eventSet] })

/-- `upgrade_pause`. -/
def upgrade_pause (env : Env) (w : World) : Except PyErr String × World :=
  match w.ctl with
  | none => (.error (.orch "No upgrade in progress"), w)
  | some st =>
      if st.paused then
        (.ok ("Upgrade to " ++ target_image env st ++ " already paused"), w)
      else
        let st2 := { st with paused := true }
        (.ok ("Paused upgrade to " ++ target_image env st2),
         save_upgrade_state { w with ctl := some st2 })

/-- `upgrade_resume`. -/
def upgrade_resume (env : Env) (w : World) : Except PyErr String × World :=
  match w.ctl with
  | none => (.error (.orch "No upgrade in progress"), w)
  | some st =>
      if !st.paused then
        (.ok ("Upgrade to " ++ target_image env st ++ " not paused"), w)
      else
        let st2 := { st with paused := false }
        let w2 := save_upgrade_state { w with ctl := some st2 }
        (.ok ("Resumed upgrade to " ++ target_image env st2),
         { w2 with trace := w2.trace ++ [.eventSet] })

/-- Python truthiness of an optional string (`None` and `''` falsy). -/
def truthyStr : Option String → Bool
  | some s => s ≠ ""
  | none => false

/-- Python truthiness of an optional list (`None` and `[]` falsy). -/
def truthyList : Option (List String) → Bool
  | some (_ :: _) => true
  | _ => false

/-- Modelled from the spec: daemon type to the service owning its
`ok_to_stop` probe (`orchestrator.daemon_type_to_service`, outside the
source under study; the identity for the classes handled here). -/
def daemon_type_to_service (t : String) : String := t

/-- The retry loop of `_wait_for_ok_to_stop`, generalised over the
per-attempt liveness check (`self.upgrade_state and not paused` — which
concurrent control operations may flip between the 15 s sleeps) and the
`ok_to_stop` probe with its in/out `known` list.  Returns
(result, probes made, 15 s sleeps made, final known list).  A probe
"succeeds" when its return value is falsy (`not r.retval`). -/
def waitLoop (active : Nat → Bool) (probe : Nat → List String → Int × List String) :
    Nat → Nat → List String → Bool × Nat × Nat × List String
  | 0, _, known => (false, 0, 0, known)
  | t + 1, i, known =>
    if !active i then (false, 0, 0, known)
    else
      let r := probe i known
      if r.1 = 0 then (true, 1, 0, r.2)
      else
        let q := waitLoop active probe t (i + 1) r.2
        (q.1, q.2.1 + 1, q.2.2.1 + 1, q.2.2.2)

/-- `_wait_for_ok_to_stop`: `tries = 4`. -/
def wait_for_ok_to_stop (active : Nat → Bool)
    (probe : Nat → List String → Int × List String) (known : List String) :
    Bool × Nat × Nat × List String :=
  waitLoop active probe 4 0 known

/-- The `known` list as it stands before attempt `j` of the retry
loop (attempt 0 sees the caller's list; each probe may extend it). -/
def knownAt (probe : Nat → List String → Int × List String) (known : List String) :
    Nat → List String
  | 0 => known
  | j + 1 => (probe j (knownAt probe known j)).2

/-- The return value attempt `j`'s probe would report, given the
evolved `known` list. -/
def retvalAt (probe : Nat → List String → Int × List String) (known : List String)
    (j : Nat) : Int :=
  (probe j (knownAt probe known j)).1

/-- Run `_wait_for_ok_to_stop` for daemon `d` inside a tick, recording
its probe and sleep effects. -/
def run_wait (env : Env) (d : DaemonDesc) (w : World) (known : List String) :
    World × List String × Bool :=
  let active := fun (_ : Nat) =>
    match w.ctl with
    | some s => !s.paused
    | none => false
  let svc := daemon_type_to_service d.daemon_type
  let q := wait_for_ok_to_stop active (fun i k => env.ok_to_stop svc d.daemon_id i k) known
  let evs := (List.range q.2.1).flatMap
    (fun j => Effect.okProbe svc d.daemon_id :: (if j < q.2.2.1 then [Effect.sleep 15] else []))
  ({ w with trace := w.trace ++ evs }, q.2.2.2, q.1)

/-- `_enough_mds_for_ok_to_stop`, inner loop: the first filesystem
whose name matches the daemon's service-name suffix decides; a daemon
belonging to no filesystem passes. -/
def enough_mds_go (env : Env) (d : DaemonDesc) : List FsInfo → Bool
  | [] => true
  | fs :: rest =>
    if fs.fs_name ≠ ((pySplit d.service_name "." 1).getD 1 "") then
      enough_mds_go env d rest
    else
      let mds_count := (env.daemons.filter (fun x => x.service_name = d.service_name)).length
      decide (fs.max_mds < (mds_count : Int))

/-- `_enough_mds_for_ok_to_stop`. -/
def enough_mds_for_ok_to_stop (env : Env) (d : DaemonDesc) : Bool :=
  enough_mds_go env d env.fs_map

/-- First loop of `_prepare_for_mds_upgrade` over `mds_metadata`:
`none` when some MDS's version is unknown (caller sleeps 5 s and
retries next tick), otherwise whether any MDS runs an older major.
(`int` on a non-numeric reported major would raise out of the tick; the
oracle is taken well-formed and the parse defaulted.) -/
def mds_scale_down_scan (target_major : String) :
    List (String × Option String) → Option Bool
  | [] => some false
  | (_, v) :: rest =>
    let major_version :=
      match v with
      | some s => (pySplitAll s ".").headD ""
      | none => ""
    if major_version = "" then none
    else
      match mds_scale_down_scan target_major rest with
      | none => none
      | some b =>
          some (b || decide ((pyInt major_version).getD 0 < (pyInt target_major).getD 0))

/-- Per-filesystem loop of `_prepare_for_mds_upgrade`: scale down to
one MDS (remembering the original fan-out, persisting before acting),
or wait for the fan-out to drop and the lone MDS to be `up:active`. -/
def mds_fs_loop (env : Env) : List FsInfo → World → Bool → World × Bool
  | [], w, cont => (w, cont)
  | fs :: rest, w, cont =>
    if fs.max_mds > 1 then
      let w1 :=
        match w.ctl with
        | some st =>
            let m := st.fs_original_max_mds.getD []
            if m.any (fun p => p.1 = fs.id) then w
            else
              save_upgrade_state
                { w with ctl := some { st with fs_original_max_mds := some (m ++ [(fs.id, fs.max_mds)]) } }
        | none => w
      let w2 := { w1 with trace := w1.trace ++ [.monCmd (.fsSet fs.fs_name "1")] }
      mds_fs_loop env rest w2 false
    else if fs.info.length > 1 then
      mds_fs_loop env rest { w with trace := w.trace ++ [.sleep 10] } false
    else
      let lone := fs.info.headD ⟨"", ""⟩
      if lone.state ≠ "up:active" then
        mds_fs_loop env rest { w with trace := w.trace ++ [.sleep 10] } false
      else mds_fs_loop env rest w cont

/-- `_prepare_for_mds_upgrade`. -/
def prepare_for_mds_upgrade (env : Env) (target_major : String) (w : World) :
    World × Bool :=
  match mds_scale_down_scan target_major env.mds_metadata with
  | none => ({ w with trace := w.trace ++ [.sleep 5] }, false)
  | some false => (w, true)
  | some true =>
      let w0 :=
        match w.ctl with
        | some st =>
            match st.fs_original_max_mds with
            | some (_ :: _) => w
            | _ => { w with ctl := some { st with fs_original_max_mds := some [] } }
        | none => w
      mds_fs_loop env env.fs_map w0 true

/-- The per-class context computed once at the top of `_do_upgrade`:
the local `target_image` / `target_version` / `target_major` variables,
the `config dump` snapshot, and the daemon inventory snapshot. -/
structure TickCtx where
  tgt : String
  target_version : String
  target_major : String
  target_major_name : String
  target_digests : List String
  image_settings : List (String × String)
  total : Nat
  daemons : List DaemonDesc
  deriving Repr

/-- Result of the partition step of one daemon class
(lines 536–570). -/
structure Partition where
  need_upgrade_self : Bool := false
  need_upgrade : List (DaemonDesc × Bool) := []
  need_upgrade_deployer : List (DaemonDesc × Bool) := []
  done_inc : Nat := 0
  deriving Repr

/-- One daemon's partition step (the body of the loop at
lines 539–570). -/
def partition_step (env : Env) (target_digests : List String)
    (daemon_type : String) (p : Partition) (d : DaemonDesc) : Partition :=
  if d.daemon_type ≠ daemon_type then p
  else
    let correct_digest :=
      anyMem (d.container_image_digests.getD []) target_digests
        || MONITORING_STACK_TYPES.contains d.daemon_type
    if correct_digest && anyMem (d.deployed_by.getD []) target_digests then
      { p with done_inc := p.done_inc + 1 }
    else if env.daemon_is_self d.daemon_type d.daemon_id then
      { p with need_upgrade_self := true }
    else if correct_digest then
      { p with need_upgrade_deployer := p.need_upgrade_deployer ++ [(d, true)] }
    else
      { p with need_upgrade := p.need_upgrade ++ [(d, false)] }

/-- Partition the daemons of one class into done / self /
redeploy-only / full-upgrade. -/
def partition_class (env : Env) (target_digests : List String)
    (daemon_type : String) (daemons : List DaemonDesc) : Partition :=
  daemons.foldl (partition_step env target_digests daemon_type) {}

/-- One daemon's safety gate (lines 608–621): storage daemons always
probe, monitors only when the quorum is more than 2 (the
`quorum_status` RPC is issued to decide), metadata daemons only when
the filesystem has redundancy.  `.error` aborts the tick. -/
def gate_daemon (env : Env) (d : DaemonDesc) (w : World) (known : List String) :
    Except World (World × List String) :=
  if d.daemon_type = "osd" then
    let q := run_wait env d w known
    if !q.2.2 then .error q.1 else .ok (q.1, q.2.1)
  else if d.daemon_type = "mon" then
    let w1 := { w with trace := w.trace ++ [.monCmd .quorumStatus] }
    if env.quorum_mons.length > 2 then
      let q := run_wait env d w1 known
      if !q.2.2 then .error q.1 else .ok (q.1, q.2.1)
    else .ok (w1, known)
  else if d.daemon_type = "mds" then
    if enough_mds_for_ok_to_stop env d then
      let q := run_wait env d w known
      if !q.2.2 then .error q.1 else .ok (q.1, q.2.1)
    else .ok (w, known)
  else .ok (w, known)

/-- Result of building one class's `to_upgrade` list. -/
inductive GateRes where
  | abort (w : World)
  | done (w : World) (to_upgrade : List (DaemonDesc × Bool)) (known : List String)
  deriving Repr

/-- The `to_upgrade`-building loop (lines 588–626): skip daemons with
unknown image id already on the target name; reuse the accumulated
known-ok-to-stop list without probing; otherwise gate, append, and stop
after a single daemon when no peer list was produced. -/
def gate_loop (env : Env) (tgt : String) :
    List (DaemonDesc × Bool) → World → List (DaemonDesc × Bool) → List String → GateRes
  | [], w, acc, _known => .done w acc _known
  | (d, flag) :: rest, w, acc, known =>
    if !truthyStr d.container_image_id && d.container_image_name = some tgt then
      gate_loop env tgt rest w acc known
    else if known ≠ [] then
      if known.contains d.name then gate_loop env tgt rest w (acc ++ [(d, flag)]) known
      else gate_loop env tgt rest w acc known
    else
      match gate_daemon env d w known with
      | .error w2 => .abort w2
      | .ok (w2, known2) =>
          let acc2 := acc ++ [(d, flag)]
          if known2 = [] then .done w2 acc2 known2
          else gate_loop env tgt rest w2 acc2 known2

/-- Per-daemon action loop (lines 628–695): publish progress, ensure
the host has the image (inspect, then pull; digest drift replaces the
stored digest set, persists, and ends the tick), then redeploy.  The
second component is `true` when the loop returned early (failure or
digest drift). -/
def act_loop (env : Env) (ctx : TickCtx) (done : Nat) :
    List (DaemonDesc × Bool) → World → World × Bool
  | [], w => (w, false)
  | (d, flag) :: rest, w =>
    let w1 := update_progress env done ctx.total w
    let w2 := { w1 with trace := w1.trace ++ [.inspectHost d.hostname ctx.tgt] }
    let ir := env.inspect_image d.hostname ctx.tgt
    let afterImage : World → World × Bool := fun wx =>
      let wy := { wx with trace := wx.trace ++ [.redeploy d.daemon_type d.daemon_id (if !flag then some ctx.tgt else none)] }
      match env.daemon_action_redeploy d (if !flag then some ctx.tgt else none) with
      | .error _ =>
          let action := if !flag then "Upgrading" else "Redeploying"
          (fail_upgrade "UPGRADE_REDEPLOY_DAEMON"
            (action ++ " daemon " ++ d.name ++ " on host " ++ d.hostname ++ " failed.") wy,
           true)
      | .ok _ => act_loop env ctx done rest wy
    if ir.2 ≠ 0 || !anyMem ir.1 ctx.target_digests then
      let w3 := { w2 with trace := w2.trace ++ [.pullHost d.hostname ctx.tgt] }
      let pr := env.pull_image d.hostname ctx.tgt
      if pr.2 ≠ 0 then
        (fail_upgrade "UPGRADE_FAILED_PULL" "Upgrade: failed to pull target image" w3, true)
      else if !anyMem pr.1 ctx.target_digests then
        let w4 :=
          match w3.ctl with
          | some st =>
              save_upgrade_state { w3 with ctl := some { st with target_digests := some pr.1 } }
          | none => w3
        (w4, true)
      else afterImage w3
    else afterImage w2

/-- Outcome of one daemon class: stop the tick, or carry the updated
`done` counter to the next class. -/
inductive ClassStep where
  | stop (w : World)
  | cont (w : World) (done : Nat)
  deriving Repr

/-- `fs_original_max_mds` restore on metadata-class completion
(lines 774–791). -/
def mds_completion (env : Env) (w : World) : World :=
  match w.ctl with
  | some st =>
      match st.fs_original_max_mds with
      | some (orig@(_ :: _)) =>
          let w1 := env.fs_map.foldl
            (fun wx fs =>
              match orig.lookup fs.id with
              | some n =>
                  if n ≠ 0 then
                    { wx with trace := wx.trace ++ [.monCmd (.fsSet fs.fs_name (toString n))] }
                  else wx
              | none => wx)
            w
          save_upgrade_state { w1 with ctl := some { st with fs_original_max_mds := some [] } }
      | _ => w
  | none => w

/-- Manager-class completion: drop a leftover `UPGRADE_NO_STANDBY_MGR`
alert (lines 721–724). -/
def standby_cleanup (daemon_type : String) (w : World) : World :=
  if daemon_type = "mgr" && w.health.contains "UPGRADE_NO_STANDBY_MGR" then
    let h := w.health.filter (fun k => k ≠ "UPGRADE_NO_STANDBY_MGR")
    { w with health := h, trace := w.trace ++ [.setHealth h] }
  else w

/-- `ceph versions` verification (lines 726–736; discrepancies are
logged only). -/
def verify_versions (w : World) : World :=
  { w with trace := w.trace ++ [.monCmd .versions] }

/-- Push the class's `container_image` setting and clean per-daemon
overrides (lines 738–756). -/
def push_configs (ctx : TickCtx) (daemon_type : String) (w : World) : World :=
  let sect := name_to_config_section daemon_type
  let w3 :=
    if ctx.image_settings.lookup sect ≠ some ctx.tgt then
      { w with trace := w.trace ++ [.monCmd (.setContainerImage sect ctx.tgt)] }
    else w
  let to_clean := (ctx.image_settings.filter (fun p => pyStartsWith p.1 (sect ++ "."))).map (·.1)
  to_clean.foldl (fun wx s => { wx with trace := wx.trace ++ [.monCmd (.configRm s)] }) w3

/-- Advance `require_osd_release` on storage-class completion
(lines 760–771). -/
def osd_completion (env : Env) (ctx : TickCtx) (daemon_type : String) (w : World) : World :=
  if daemon_type = "osd"
      && ceph_release_to_major env.require_osd_release < (pyInt ctx.target_major).getD 0 then
    { w with trace := w.trace ++ [.monCmd (.osdRequire ctx.target_major_name)] }
  else w

/-- Class-completion actions (lines 699–791), reached only when the
class had no daemons left to act on: possible forced manager fail-over,
standby-alert cleanup, `versions` verification, `container_image`
config push and per-daemon override cleanup, `require_osd_release`
advance, MDS fan-out restore. -/
def completion_phase (env : Env) (ctx : TickCtx) (daemon_type : String)
    (need_upgrade_self : Bool) (done2 : Nat) (w : World) : ClassStep :=
  let self2 :=
    if daemon_type = "mon" && !env.have_local_config_map then true
    else need_upgrade_self
  if self2 then
    match env.fail_over with
    | .ok _ => .stop { w with trace := w.trace ++ [.failover] }
    | .error e => .stop (fail_upgrade "UPGRADE_NO_STANDBY_MGR" ("Upgrade: " ++ e) w)
  else
    let w4 := osd_completion env ctx daemon_type
      (push_configs ctx daemon_type (verify_versions (standby_cleanup daemon_type w)))
    let w5 := if daemon_type = "mds" then mds_completion env w4 else w4
    .cont w5 done2

/-- Gate, act and complete one daemon class after partitioning and the
MDS pre-stage. -/
def class_body (env : Env) (ctx : TickCtx) (daemon_type : String)
    (need_upgrade_self : Bool) (need : List (DaemonDesc × Bool))
    (done2 : Nat) (w : World) : ClassStep :=
  match gate_loop env ctx.tgt need w [] [] with
  | .abort w2 => .stop w2
  | .done w2 to_upgrade _ =>
      let ar := act_loop env ctx done2 to_upgrade w2
      if ar.2 then .stop ar.1
      else if to_upgrade ≠ [] then .stop ar.1
      else completion_phase env ctx daemon_type need_upgrade_self done2 ar.1

/-- One daemon class of the per-class traversal. -/
def process_class (env : Env) (ctx : TickCtx) (daemon_type : String)
    (done : Nat) (w : World) : ClassStep :=
  let p := partition_class env ctx.target_digests daemon_type ctx.daemons
  let done2 := done + p.done_inc
  let need :=
    if !p.need_upgrade_self then p.need_upgrade ++ p.need_upgrade_deployer
    else p.need_upgrade
  if daemon_type = "mds" && !need.isEmpty then
    let pp := prepare_for_mds_upgrade env ctx.target_major w
    if !pp.2 then .stop pp.1
    else class_body env ctx daemon_type p.need_upgrade_self need done2 pp.1
  else class_body env ctx daemon_type p.need_upgrade_self need done2 w

/-- Termination actions after the last class (lines 793–809). -/
def final_cleanup (_env : Env) (ctx : TickCtx) (w : World) : World :=
  let w1 : World := { w with trace := w.trace ++ [.monCmd (.setContainerImage "global" ctx.tgt)] }
  let w2 : World := CEPH_UPGRADE_ORDER.foldl
    (fun (wx : World) t =>
      { wx with trace := wx.trace ++ [.monCmd (.configRm (name_to_config_section t))] }) w1
  let w3 : World :=
    match w2.ctl with
    | some st =>
        if st.progress_id ≠ "" then
          { w2 with trace := w2.trace ++ [.progressComplete st.progress_id] }
        else w2
    | none => w2
  save_upgrade_state { w3 with ctl := none }

/-- The per-class traversal in class order. -/
def process_classes (env : Env) (ctx : TickCtx) :
    List String → Nat → World → World
  | [], _, w => final_cleanup env ctx w
  | c :: rest, done, w =>
    match process_class env ctx c done w with
    | .stop w2 => w2
    | .cont w2 done2 => process_classes env ctx rest done2 w2

/-- `_do_upgrade` after the first-pull stage: legacy `target_version`
normalisation (in-memory only), policy re-validation, `config dump`
snapshot, and the per-class traversal.  The second component carries an
uncaught exception escaping to `continue_upgrade`. -/
def do_upgrade_main (env : Env) (w : World) (tgt : String)
    (target_version_raw : String) (target_digests : List String) :
    World × Option PyErr :=
  let legacy := pyStartsWith target_version_raw "ceph version "
  let target_version :=
    if legacy then (pySplitAll target_version_raw " ").getD 2 "" else target_version_raw
  let wA :=
    if legacy then
      { w with ctl := w.ctl.map (fun s => { s with target_version := some target_version }) }
    else w
  let target_major := (pySplitAll target_version ".").headD ""
  let target_major_name := env.lookup_release_name ((pyInt target_major).getD 0)
  match check_target_version env target_version with
  | .error e => (wA, some e)
  | .ok (some _version_error) =>
      (fail_upgrade "UPGRADE_BAD_TARGET_VERSION"
        ("Upgrade: cannot upgrade/downgrade to " ++ target_version) wA, none)
  | .ok none =>
      let wB := { wA with trace := wA.trace ++ [.monCmd .configDump] }
      let image_settings := env.config_opts.foldl
        (fun m t => if t.1 = "container_image" then dictPut m t.2.1 t.2.2 else m) []
      let daemons := env.daemons.filter (fun d => CEPH_UPGRADE_ORDER.contains d.daemon_type)
      let ctx : TickCtx :=
        { tgt := tgt, target_version := target_version, target_major := target_major
          target_major_name := target_major_name, target_digests := target_digests
          image_settings := image_settings, total := daemons.length, daemons := daemons }
      (process_classes env ctx CEPH_UPGRADE_ORDER 0 wB, none)

/-- `_do_upgrade`: the first-pull stage (lines 461–502), then the main
body.  (In the model the raw version string returned by the agent is
taken well-formed where the source would raise `IndexError` out of the
tick.) -/
def do_upgrade (env : Env) (w : World) : World × Option PyErr :=
  match w.ctl with
  | none => (w, none)
  | some st0 =>
      let ti0 := target_image env st0
      if !truthyStr st0.target_id || !truthyStr st0.target_version
          || !truthyList st0.target_digests then
        match env.get_container_image_info ti0 with
        | .error _e =>
            (fail_upgrade "UPGRADE_FAILED_PULL" "Upgrade: failed to pull target image" w,
             none)
        | .ok (tid, tver, tdigs) =>
            if tver = "" then
              (fail_upgrade "UPGRADE_FAILED_PULL" "Upgrade: failed to pull target image" w,
               none)
            else
              let st1 := { st0 with
                target_id := some tid
                target_version := some ((pySplitAll tver " ").getD 2 "")
                target_digests := some tdigs }
              let w1 := save_upgrade_state { w with ctl := some st1 }
              do_upgrade_main env w1 (target_image env st1) tver tdigs
      else
        do_upgrade_main env w ti0 (st0.target_version.getD "") (st0.target_digests.getD [])

/-- `continue_upgrade` (the tick entry point): run the loop when an
unpaused upgrade exists, converting any uncaught exception into the
`UPGRADE_EXCEPTION` alert; otherwise report that nothing was done. -/
def continue_upgrade (env : Env) (w : World) : Bool × World :=
  match w.ctl with
  | some st =>
      if !st.paused then
        let (w2, exc) := do_upgrade env w
        match exc with
        | some _e =>
            (false,
             fail_upgrade "UPGRADE_EXCEPTION"
               "Upgrade: failed due to an unexpected exception" w2)
        | none => (true, w2)
      else (false, w)
  | none => (false, w)

/-- Is an effect a daemon redeploy (the restart of one daemon)? -/
def isRedeploy : Effect → Bool
  | .redeploy _ _ _ => true
  | _ => false

/-- The daemon class an effect restarts, when it is a redeploy. -/
def redeployType : Effect → Option String
  | .redeploy t _ _ => some t
  | _ => none

/-- Effects that only class-completion actions, the final cleanup, or
the examination of a further daemon class can produce: every cluster
RPC (`config dump` / `quorum_status` / `versions` / `fs set` /
`config rm` / `require-osd-release` / `container_image` pushes), the
safety probes and their sleeps, the manager fail-over, and the final
progress-complete.  The per-daemon action loop emits none of these —
its effects are progress updates, host inspect/pull, state saves,
health publications and the redeploys themselves. -/
def isClassBoundary : Effect → Bool
  | .monCmd _ => true
  | .okProbe _ _ => true
  | .sleep _ => true
  | .failover => true
  | .progressComplete _ => true
  | _ => false

/-- No class-boundary effect (completion action or later-class
examination) occurs after any redeploy in the trace. -/
def noBoundaryAfterRedeploy : List Effect → Bool
  | [] => true
  | e :: rest =>
      (!isRedeploy e || rest.all (fun x => !isClassBoundary x)) &&
        noBoundaryAfterRedeploy rest

/-- `w'` extends `w`'s trace with redeploy-free effects. -/
def QuietExt (w w' : World) : Prop :=
  ∃ ext, w'.trace = w.trace ++ ext ∧ ext.all (fun e => !isRedeploy e) = true

/-- `w'` extends `w`'s trace with action-loop effects: nothing
class-boundary, and every redeploy is of class `c`. -/
def ActExt (c : String) (w w' : World) : Prop :=
  ∃ ext, w'.trace = w.trace ++ ext ∧ ext.all (fun e => !isClassBoundary e) = true ∧
    ∀ e ∈ ext, isRedeploy e = true → redeployType e = some c

/-- `w'` extends `w`'s trace with effects that are neither redeploys
nor class-boundary markers (state saves, health publications,
progress updates, host inspect/pull). -/
def TameExt (w w' : World) : Prop :=
  ∃ ext, w'.trace = w.trace ++ ext ∧
    ext.all (fun e => !isRedeploy e && !isClassBoundary e) = true

/-- `w'` extends `w`'s trace with a redeploy-free prefix followed by a
boundary-free suffix whose redeploys are all of class `c` — the shape
of a tick that stops inside class `c`. -/
def StopExt (c : String) (w w' : World) : Prop :=
  ∃ pre post, w'.trace = w.trace ++ (pre ++ post) ∧
    pre.all (fun e => !isRedeploy e) = true ∧
    post.all (fun e => !isClassBoundary e) = true ∧
    ∀ e ∈ post, isRedeploy e = true → redeployType e = some c

/-! ## Concrete environments for witnesses and counterexamples -/

/-- A cluster currently on octopus 15.2.0, with monitor and OSD
release floors matching. -/
def env_octopus : Env :=
  { version := "ceph version 15.2.0 (abc) octopus (stable)",
    mon_min := 15, require_osd_release := "octopus" }

/-- A cluster currently on nautilus 14.2.22, with matching floors. -/
def env_nautilus : Env :=
  { version := "ceph version 14.2.22 (abc) nautilus (stable)",
    mon_min := 14, require_osd_release := "nautilus" }

/-- A cluster currently on pacific 16.2.5, with matching floors. -/
def env_pacific : Env :=
  { version := "ceph version 16.2.5 (abc) pacific (stable)",
    mon_min := 16, require_osd_release := "pacific" }

/-- A paused in-memory state used by several witnesses. -/
def st_paused : UpgradeState :=
  { target_name := "docker.io/ceph/ceph:v16.2.0", progress_id := "p1", paused := true }

/-- An unpaused in-progress state targeting
`docker.io/ceph/ceph:v16.2.0`. -/
def st_inprog : UpgradeState :=
  { target_name := "docker.io/ceph/ceph:v16.2.0", progress_id := "p1", paused := false }

/-- A healthy start environment: root mode, two running managers,
octopus 15.2.0 cluster. -/
def env_start : Env :=
  { version := "ceph version 15.2.0 (abc) octopus (stable)",
    mon_min := 15, require_osd_release := "octopus",
    daemons := [{ daemon_type := "mgr", daemon_id := "a", hostname := "h1" },
                { daemon_type := "mgr", daemon_id := "b", hostname := "h2" }] }

/-- A demonstration probe that fails twice, then succeeds. -/
def probe_demo : Nat → List String → Int × List String :=
  fun i k => (if i < 2 then 1 else 0, k)

/-- Two running managers (the first hosting the controller) on an
octopus 15.2.0 cluster; the upgrade trace environments below vary only
the host-agent oracles. -/
def env_trace_start : Env :=
  { version := "ceph version 15.2.0 (abc) octopus (stable)",
    mon_min := 15, require_osd_release := "octopus",
    fresh_uuid := "prog-1",
    daemon_is_self := fun t i => t = "mgr" && i = "a",
    daemons := [{ daemon_type := "mgr", daemon_id := "a", hostname := "h1" },
                { daemon_type := "mgr", daemon_id := "b", hostname := "h2" }] }

/-- First tick: the registry is unreachable, the first pull fails. -/
def env_trace_fail : Env :=
  { env_trace_start with
    get_container_image_info := fun _ => .error "unreachable registry" }

/-- Later tick: the pull succeeds, but redeploying a daemon throws. -/
def env_trace_redeploy : Env :=
  { env_trace_start with
    get_container_image_info := fun _ =>
      .ok ("id1", "ceph version 16.2.0 (def) pacific (stable)", ["sha256:new"]),
    inspect_image := fun _ _ => ([], 1),
    pull_image := fun _ _ => (["sha256:new"], 0),
    daemon_action_redeploy := fun _ _ => .error "redeploy failed" }

/-- World after `start(image='myimg')`. -/
def w_trace1 : World := (upgrade_start env_trace_start "myimg" "" {}).2

/-- World after a tick whose first pull fails (`UPGRADE_FAILED_PULL`
registered, error set, paused). -/
def w_trace2 : World := (continue_upgrade env_trace_fail w_trace1).2

/-- World after the operator resumes (alert and error survive). -/
def w_trace3 : World := (upgrade_resume env_trace_start w_trace2).2

/-- World after a tick in which redeploying `mgr.b` throws
(`UPGRADE_REDEPLOY_DAEMON` registered beside the earlier alert). -/
def w_trace4 : World := (continue_upgrade env_trace_redeploy w_trace3).2

/-! ## C3 — state-store round trip -/

/-- C3: round-trip of the state store.  Persisting an `UpgradeState`
(`to_json`, as `_save_upgrade_state` serialises it) and loading it back
(`from_json`) reproduces the state exactly, for every value of every
field (including a non-empty `fs_original_max_mds`); the
legacy-field normalisation (`repo_digest`, `"ceph version X.Y.Z"`)
never has anything to rewrite on freshly saved data, so "equal modulo
normalisation" holds in the strongest form, plain equality. -/
theorem save_load_roundtrip (s : UpgradeState) :
    UpgradeState.from_json (UpgradeState.to_json s) = .ok (some s) := by
  simp [UpgradeState.from_json, UpgradeState.to_json, StateJson.isEmpty]

/-! ## C1 — version-policy jump boundary -/

/-- C1 fails as stated: `15.2.0 → 17.2.0` and `14.2.x → 16.2.0` are
exactly-two-major jumps, which `_check_target_version` accepts (the
rejection fires only when `current_major < major - 2`, i.e. a jump of
three or more), while the claim says both are rejected. -/
theorem jump_boundary_counterexample :
    check_target_version env_octopus "17.2.0" = .ok none ∧
    check_target_version env_nautilus "16.2.0" = .ok none ∧
    check_target_version env_octopus "16.2.0" = .ok none := by
  refine ⟨rfl, rfl, rfl⟩

/-- C1 amended: for every current and target version whose components
parse, a jump of more than two majors forward (`current_major <
target_major - 2`) makes `_check_target_version` return a non-none
rejection string. -/
theorem check_target_version_rejects_over_two_major_jump
    (env : Env) (version major minor patch cvs cmajor cminor cpatch : String)
    (ma mi cma : Int)
    (hsplit : pySplit version "." 2 = [major, minor, patch])
    (hmi : pyInt minor = some mi) (hmige : 0 ≤ mi)
    (hma : pyInt major = some ma)
    (hcv : ((pySplitAll env.version "ceph version ").drop 1).head? = some cvs)
    (hcsplit : pySplit ((pySplitAll cvs "-").headD "") "." 2 = [cmajor, cminor, cpatch])
    (hcma : pyInt cmajor = some cma)
    (hjump : cma < ma - 2) :
    ∃ msg, check_target_version env version = .ok (some msg) := by
  unfold check_target_version
  rw [hsplit]
  simp only [hmi, hma, hcv, hcsplit, hcma]
  split_ifs with h1 h2 <;> first
    | exact ⟨_, rfl⟩
    | omega

/-- Witness for the amended C1: a nautilus (14.2.22) cluster upgrading
to 17.2.0 — a three-major jump — is rejected. -/
theorem check_target_version_rejects_over_two_major_jump_witness :
    ∃ msg, check_target_version env_nautilus "17.2.0" = .ok (some msg) :=
  check_target_version_rejects_over_two_major_jump env_nautilus "17.2.0"
    "17" "2" "0" "14.2.22 (abc) nautilus (stable)" "14" "2" "22 (abc) nautilus (stable)"
    17 2 14 rfl rfl (by norm_num) rfl rfl rfl rfl (by norm_num)

/-! ## C2 — same-major downgrade -/

/-- C2 fails as stated: `16.2.5 → 16.2.3` is accepted, because the
same-major downgrade check compares only the second (minor) component
(`current_minor > minor`), and both versions have minor 2; the
patch-level downgrade is not rejected. -/
theorem minor_downgrade_counterexample :
    check_target_version env_pacific "16.2.3" = .ok none := rfl

/-- C2 amended: with equal majors, a target whose *minor* (second)
component is strictly below the current one is rejected with a non-none
reason; equal-minor patch downgrades are not covered by this check. -/
theorem check_target_version_rejects_minor_downgrade
    (env : Env) (version major minor patch cvs cmajor cminor cpatch : String)
    (ma mi cma cmi : Int)
    (hsplit : pySplit version "." 2 = [major, minor, patch])
    (hmi : pyInt minor = some mi) (hmige : 0 ≤ mi)
    (hma : pyInt major = some ma)
    (hcv : ((pySplitAll env.version "ceph version ").drop 1).head? = some cvs)
    (hcsplit : pySplit ((pySplitAll cvs "-").headD "") "." 2 = [cmajor, cminor, cpatch])
    (hcma : pyInt cmajor = some cma)
    (hcmi : pyInt cminor = some cmi)
    (heq : cma = ma) (hdown : cmi > mi) :
    ∃ msg, check_target_version env version = .ok (some msg) := by
  unfold check_target_version
  rw [hsplit]
  simp only [hmi, hma, hcv, hcsplit, hcma, hcmi]
  split_ifs with h1 h2 h3 h4 h5 <;> first
    | exact ⟨_, rfl⟩
    | omega

/-- Witness for the amended C2: a pacific (16.2.5) cluster downgrading
to the 16.1.0 release candidate is rejected. -/
theorem check_target_version_rejects_minor_downgrade_witness :
    ∃ msg, check_target_version env_pacific "16.1.0" = .ok (some msg) :=
  check_target_version_rejects_minor_downgrade env_pacific "16.1.0"
    "16" "1" "0" "16.2.5 (abc) pacific (stable)" "16" "2" "5 (abc) pacific (stable)"
    16 1 16 2 rfl rfl (by norm_num) rfl rfl rfl rfl rfl rfl (by norm_num)

/-! ## C6 — paused tick is a no-op -/

/-- C6: when the upgrade is paused, the tick entry point
(`continue_upgrade`) returns `false` without invoking the upgrade loop:
the returned world is the input world — no redeploy, no RPC, no
progress event, no health change, no state or store mutation. -/
theorem continue_upgrade_paused_noop (env : Env) (w : World) (st : UpgradeState)
    (hctl : w.ctl = some st) (hp : st.paused = true) :
    continue_upgrade env w = (false, w) := by
  unfold continue_upgrade
  rw [hctl]
  simp [hp]


/-- Witness for C6 at a concrete paused world. -/
theorem continue_upgrade_paused_noop_witness :
    continue_upgrade env_pacific { ctl := some st_paused } =
      (false, { ctl := some st_paused }) :=
  continue_upgrade_paused_noop env_pacific { ctl := some st_paused } st_paused rfl rfl

/-! ## C10 — pause/resume edge cases -/

/-- C10: `upgrade_pause` on an already-paused upgrade and
`upgrade_resume` on a non-paused upgrade return informational messages
with the world unchanged (no state mutation, no store write), and both
operations raise `OrchestratorError` exactly when no upgrade is in
progress. -/
theorem pause_resume_edge_cases (env : Env) (w : World) :
    ((∃ m, (upgrade_pause env w).1 = .error (.orch m)) ↔ w.ctl = none) ∧
    ((∃ m, (upgrade_resume env w).1 = .error (.orch m)) ↔ w.ctl = none) ∧
    (∀ st, w.ctl = some st → st.paused = true →
      upgrade_pause env w =
        (.ok ("Upgrade to " ++ target_image env st ++ " already paused"), w)) ∧
    (∀ st, w.ctl = some st → st.paused = false →
      upgrade_resume env w =
        (.ok ("Upgrade to " ++ target_image env st ++ " not paused"), w)) := by
  refine ⟨?_, ?_, ?_, ?_⟩
  · cases hc : w.ctl with
    | none => simp [upgrade_pause, hc]
    | some st => cases hp : st.paused <;> simp [upgrade_pause, hc, hp]
  · cases hc : w.ctl with
    | none => simp [upgrade_resume, hc]
    | some st => cases hp : st.paused <;> simp [upgrade_resume, hc, hp]
  · intro st hc hp
    simp [upgrade_pause, hc, hp]
  · intro st hc hp
    simp [upgrade_resume, hc, hp]

/-- Witness for C10: pausing an already-paused concrete upgrade
changes nothing and reports the fact. -/
theorem pause_resume_edge_cases_witness :
    upgrade_pause env_pacific { ctl := some st_paused } =
      (.ok ("Upgrade to " ++ target_image env_pacific st_paused ++ " already paused"),
       { ctl := some st_paused }) :=
  (pause_resume_edge_cases env_pacific { ctl := some st_paused }).2.2.1 st_paused rfl rfl

/-! ## C5 — idempotence of start on the same target -/

/-- C5: when an upgrade to the same computed target is already in
progress, `upgrade_start` changes nothing (in particular no new
`progress_id` and no store write) and reports in-progress — except that
a paused state has only its `paused` flag flipped to `false` and is
persisted. -/
theorem upgrade_start_same_target_idempotent
    (env : Env) (image version : String) (w : World) (st : UpgradeState)
    (hmode : env.mode = "root")
    (hok : (version ≠ "" ∧ check_target_version env version = .ok none) ∨
           (version = "" ∧ image ≠ ""))
    (hctl : w.ctl = some st)
    (hname : st.target_name = start_target_name env image version) :
    upgrade_start env image version w =
      if st.paused then
        (.ok ("Resumed upgrade to " ++ target_image env { st with paused := false }),
         save_upgrade_state { w with ctl := some { st with paused := false } })
      else
        (.ok ("Upgrade to " ++ target_image env st ++ " in progress"), w) := by
  rcases hok with ⟨hv, hpol⟩ | ⟨hv, himg⟩
  · rw [start_target_name, if_pos hv] at hname
    unfold upgrade_start
    rw [hmode]
    simp [hv, hpol, hctl, hname]
  · rw [start_target_name, if_neg (by simp [hv])] at hname
    unfold upgrade_start
    rw [hmode]
    simp [hv, himg, hctl, hname]


/-- Witness for C5: re-issuing `start` for the same version while the
upgrade runs unpaused returns in-progress and leaves the world
untouched. -/
theorem upgrade_start_same_target_idempotent_witness :
    upgrade_start env_octopus "" "16.2.0" { ctl := some st_inprog } =
      (.ok ("Upgrade to " ++ target_image env_octopus st_inprog ++ " in progress"),
       { ctl := some st_inprog }) := by
  have h := upgrade_start_same_target_idempotent env_octopus "" "16.2.0"
    { ctl := some st_inprog } st_inprog rfl (Or.inl ⟨by decide, rfl⟩) rfl rfl
  simpa using h

/-! ## C4 — precondition characterisation of `upgrade_start` -/


/-- C4 fails as stated: with every enumerated precondition satisfied
(root mode, no upgrade in progress, two running managers) and the
version `"x.2.3"`, `upgrade_start` neither raises `OrchestratorError`
nor returns a message — the version policy's uncaught `int(major)`
raises a bare `ValueError`, which escapes (`int('x')` is outside the
`try/except ValueError` of `_check_target_version`). -/
theorem upgrade_start_nonorch_exception_counterexample :
    (upgrade_start env_start "" "x.2.3" {}).1 = .error .valueError ∧
    env_start.mode = "root" ∧
    ({} : World).ctl = none ∧
    2 ≤ running_mgr_count env_start ∧
    check_target_version env_start "x.2.3" = .error .valueError :=
  ⟨rfl, rfl, rfl, by decide, rfl⟩

/-- C4 amended: provided the version policy itself returns normally
(no version given, or `_check_target_version` does not raise),
`upgrade_start` raises `OrchestratorError` exactly when a precondition
fails — non-root mode, neither image nor version, a given version
rejected by the policy, an upgrade to a different target already in
progress, or (with no upgrade state) fewer than two running managers
— and otherwise returns a message.  Versions on which the policy
raises (e.g. `"x.2.3"`) escape as the underlying exception instead. -/
theorem upgrade_start_orch_error_iff
    (env : Env) (image version : String) (w : World)
    (hv : version = "" ∨ ∃ r, check_target_version env version = .ok r) :
    (∃ m, (upgrade_start env image version w).1 = .error (.orch m)) ↔
      (env.mode ≠ "root" ∨
       (version = "" ∧ image = "") ∨
       (version ≠ "" ∧ ∃ s, check_target_version env version = .ok (some s)) ∨
       (∃ st, w.ctl = some st ∧ st.target_name ≠ start_target_name env image version) ∨
       (w.ctl = none ∧ running_mgr_count env < 2)) := by
  by_cases hm : env.mode = "root"
  case neg => simp [upgrade_start, hm]
  case pos =>
    by_cases hv0 : version = ""
    · have hts : start_target_name env image version
          = normalize_image_digest image env.default_registry := by
        simp [start_target_name, hv0]
      by_cases hi : image = ""
      · simp [upgrade_start, hm, hv0, hi]
      · rw [hts]
        cases hc : w.ctl with
        | some st =>
            by_cases hn : st.target_name = normalize_image_digest image env.default_registry
            · cases hp : st.paused <;>
                simp [upgrade_start, hm, hv0, hi, hc, hn, hp]
            · simp [upgrade_start, hm, hv0, hi, hc, hn]
        | none =>
            by_cases hg : running_mgr_count env < 2 <;>
              simp [upgrade_start, hm, hv0, hi, hc, hg]
    · rcases hv with hv | ⟨r, hr⟩
      · exact absurd hv hv0
      · cases r with
        | some s => simp [upgrade_start, hm, hv0, hr]
        | none =>
            have hts : start_target_name env image version
                = env.container_image_base ++ ":v" ++ version := by
              simp [start_target_name, hv0]
            rw [hts]
            cases hc : w.ctl with
            | some st =>
                by_cases hn : st.target_name = env.container_image_base ++ ":v" ++ version
                · cases hp : st.paused <;>
                    simp [upgrade_start, hm, hv0, hr, hc, hn, hp]
                · simp [upgrade_start, hm, hv0, hr, hc, hn]
            | none =>
                by_cases hg : running_mgr_count env < 2 <;>
                  simp [upgrade_start, hm, hv0, hr, hc, hg]

/-- Witness for the amended C4: at a concrete healthy environment with
no state, version 16.2.0 (which the policy accepts), the
characterisation applies; no disjunct holds and indeed start does not
raise. -/
theorem upgrade_start_orch_error_iff_witness :
    ((∃ m, (upgrade_start env_start "" "16.2.0" {}).1 = .error (.orch m)) ↔
      (env_start.mode ≠ "root" ∨
       (("16.2.0" : String) = "" ∧ ("" : String) = "") ∨
       (("16.2.0" : String) ≠ "" ∧ ∃ s, check_target_version env_start "16.2.0" = .ok (some s)) ∨
       (∃ st, ({} : World).ctl = some st ∧
         st.target_name ≠ start_target_name env_start "" "16.2.0") ∨
       (({} : World).ctl = none ∧ running_mgr_count env_start < 2))) :=
  upgrade_start_orch_error_iff env_start "" "16.2.0" {} (Or.inr ⟨none, rfl⟩)

/-! ## C8 — wait-for-ok-to-stop retry loop -/

/-- Unfolding lemma: zero tries left. -/
theorem waitLoop_zero (active : Nat → Bool)
    (probe : Nat → List String → Int × List String) (i : Nat) (known : List String) :
    waitLoop active probe 0 i known = (false, 0, 0, known) := rfl

/-- Unfolding lemma: one more try. -/
theorem waitLoop_succ (active : Nat → Bool)
    (probe : Nat → List String → Int × List String) (t i : Nat) (known : List String) :
    waitLoop active probe (t + 1) i known =
      if !active i then (false, 0, 0, known)
      else if (probe i known).1 = 0 then (true, 1, 0, (probe i known).2)
      else
        ((waitLoop active probe t (i + 1) (probe i known).2).1,
         (waitLoop active probe t (i + 1) (probe i known).2).2.1 + 1,
         (waitLoop active probe t (i + 1) (probe i known).2).2.2.1 + 1,
         (waitLoop active probe t (i + 1) (probe i known).2).2.2.2) := rfl

/-- Behaviour of the retry loop for arbitrary `tries` and start index,
by induction: probe count bounded by `tries`; success at the first
succeeding probe; failure after exhausting all attempts; immediate
failure when the liveness check is down at the start of an attempt. -/
theorem waitLoop_spec (active : Nat → Bool)
    (probe : Nat → List String → Int × List String) (known0 : List String) :
    ∀ t i,
      (waitLoop active probe t i (knownAt probe known0 i)).2.1 ≤ t ∧
      (∀ k, k < t → (∀ j, j ≤ k → active (i + j) = true) →
        (∀ j, j < k → retvalAt probe known0 (i + j) ≠ 0) →
        retvalAt probe known0 (i + k) = 0 →
        waitLoop active probe t i (knownAt probe known0 i)
          = (true, k + 1, k, knownAt probe known0 (i + k + 1))) ∧
      ((∀ j, j < t → active (i + j) = true) →
        (∀ j, j < t → retvalAt probe known0 (i + j) ≠ 0) →
        waitLoop active probe t i (knownAt probe known0 i)
          = (false, t, t, knownAt probe known0 (i + t))) ∧
      (∀ k, k < t →
        (∀ j, j < k → active (i + j) = true ∧ retvalAt probe known0 (i + j) ≠ 0) →
        active (i + k) = false →
        waitLoop active probe t i (knownAt probe known0 i)
          = (false, k, k, knownAt probe known0 (i + k))) := by
  intro t
  induction t with
  | zero =>
      intro i
      refine ⟨Nat.le_refl 0, ?_, ?_, ?_⟩
      · intro k hk; omega
      · intro _ _; rfl
      · intro k hk; omega
  | succ t ih =>
      intro i
      by_cases ha : active i = true
      · have hz' : retvalAt probe known0 i = (probe i (knownAt probe known0 i)).1 := rfl
        have hr0 : (probe i (knownAt probe known0 i)).2 = knownAt probe known0 (i + 1) := rfl
        by_cases hz : retvalAt probe known0 i = 0
        · have hW : waitLoop active probe (t + 1) i (knownAt probe known0 i)
              = (true, 1, 0, knownAt probe known0 (i + 1)) := by
            rw [waitLoop_succ, ha]
            simp only [Bool.not_true, Bool.false_eq_true, if_false]
            rw [if_pos (hz' ▸ hz), hr0]
          refine ⟨?_, ?_, ?_, ?_⟩
          · rw [hW]; show 1 ≤ t + 1; omega
          · intro k hk hact hfail hsucc
            match k with
            | 0 => rw [hW]
            | k' + 1 =>
                exact absurd hz (hfail 0 (Nat.succ_pos k'))
          · intro hact hfail
            exact absurd hz (hfail 0 (Nat.succ_pos t))
          · intro k hk hpre hdown
            match k with
            | 0 => rw [Nat.add_zero] at hdown; simp [ha] at hdown
            | k' + 1 =>
                exact absurd hz ((hpre 0 (Nat.succ_pos k')).2)
        · have hW : waitLoop active probe (t + 1) i (knownAt probe known0 i)
              = ((waitLoop active probe t (i + 1) (knownAt probe known0 (i + 1))).1,
                 (waitLoop active probe t (i + 1) (knownAt probe known0 (i + 1))).2.1 + 1,
                 (waitLoop active probe t (i + 1) (knownAt probe known0 (i + 1))).2.2.1 + 1,
                 (waitLoop active probe t (i + 1) (knownAt probe known0 (i + 1))).2.2.2) := by
            rw [waitLoop_succ, ha]
            simp only [Bool.not_true, Bool.false_eq_true, if_false]
            rw [if_neg (hz' ▸ hz), hr0]
          obtain ⟨iha, ihb, ihc, ihd⟩ := ih (i + 1)
          refine ⟨?_, ?_, ?_, ?_⟩
          · rw [hW]; show (waitLoop active probe t (i + 1) _).2.1 + 1 ≤ t + 1
            omega
          · intro k hk hact hfail hsucc
            match k with
            | 0 => exact absurd hsucc hz
            | k' + 1 =>
                have h2 := ihb k' (by omega)
                  (fun j hj => by
                    have h := hact (j + 1) (by omega)
                    have e : i + 1 + j = i + (j + 1) := by omega
                    rw [e]; exact h)
                  (fun j hj => by
                    have h := hfail (j + 1) (by omega)
                    have e : i + 1 + j = i + (j + 1) := by omega
                    rw [e]; exact h)
                  (by have e : i + 1 + k' = i + (k' + 1) := by omega
                      rw [e]; exact hsucc)
                rw [hW, h2]
                have e : i + 1 + k' + 1 = i + (k' + 1) + 1 := by omega
                rw [e]
          · intro hact hfail
            have h2 := ihc
              (fun j hj => by
                have h := hact (j + 1) (by omega)
                have e : i + 1 + j = i + (j + 1) := by omega
                rw [e]; exact h)
              (fun j hj => by
                have h := hfail (j + 1) (by omega)
                have e : i + 1 + j = i + (j + 1) := by omega
                rw [e]; exact h)
            rw [hW, h2]
            have e : i + 1 + t = i + (t + 1) := by omega
            rw [e]
          · intro k hk hpre hdown
            match k with
            | 0 => rw [Nat.add_zero] at hdown; simp [ha] at hdown
            | k' + 1 =>
                have h2 := ihd k' (by omega)
                  (fun j hj => by
                    have h := hpre (j + 1) (by omega)
                    have e : i + 1 + j = i + (j + 1) := by omega
                    rw [e]; exact h)
                  (by have e : i + 1 + k' = i + (k' + 1) := by omega
                      rw [e]; exact hdown)
                rw [hW, h2]
                have e : i + 1 + k' = i + (k' + 1) := by omega
                rw [e]
      · have ha' : active i = false := by simpa using ha
        have hW : waitLoop active probe (t + 1) i (knownAt probe known0 i)
            = (false, 0, 0, knownAt probe known0 i) := by
          rw [waitLoop_succ, ha']
          simp
        refine ⟨?_, ?_, ?_, ?_⟩
        · rw [hW]; show 0 ≤ t + 1; omega
        · intro k hk hact hfail hsucc
          exact absurd (by simpa using hact 0 (Nat.zero_le k)) ha
        · intro hact hfail
          exact absurd (by simpa using hact 0 (Nat.succ_pos t)) ha
        · intro k hk hpre hdown
          match k with
          | 0 => rw [hW]; simp
          | k' + 1 =>
              exact absurd (by simpa using (hpre 0 (Nat.succ_pos k')).1) ha

/-- C8: `_wait_for_ok_to_stop` probes at most 4 times with a 15 s
sleep after each failure; it returns `true` at the first succeeding
probe (counting its sleeps); it returns `false` after all 4 attempts
fail; and it returns `false` without probing further when the state is
cleared or paused at the start of an attempt. -/
theorem wait_for_ok_to_stop_spec (active : Nat → Bool)
    (probe : Nat → List String → Int × List String) (known : List String) :
    (wait_for_ok_to_stop active probe known).2.1 ≤ 4 ∧
    (∀ i, i < 4 → (∀ j, j ≤ i → active j = true) →
      (∀ j, j < i → retvalAt probe known j ≠ 0) → retvalAt probe known i = 0 →
      wait_for_ok_to_stop active probe known = (true, i + 1, i, knownAt probe known (i + 1))) ∧
    ((∀ j, j < 4 → active j = true) → (∀ j, j < 4 → retvalAt probe known j ≠ 0) →
      wait_for_ok_to_stop active probe known = (false, 4, 4, knownAt probe known 4)) ∧
    (∀ i, i < 4 → (∀ j, j < i → active j = true ∧ retvalAt probe known j ≠ 0) →
      active i = false →
      wait_for_ok_to_stop active probe known = (false, i, i, knownAt probe known i)) := by
  have h := waitLoop_spec active probe known 4 0
  simpa [wait_for_ok_to_stop, knownAt] using h


/-- Witness for C8: with an always-live state and a probe succeeding
at the third attempt, the loop returns `true` after exactly 3 probes
and 2 sleeps. -/
theorem wait_for_ok_to_stop_spec_witness :
    wait_for_ok_to_stop (fun _ => true) probe_demo []
      = (true, 3, 2, knownAt probe_demo [] 3) :=
  (wait_for_ok_to_stop_spec (fun _ => true) probe_demo []).2.1 2 (by omega)
    (fun j _ => rfl)
    (fun j hj => by
      interval_cases j <;> simp [retvalAt, probe_demo, knownAt])
    (by simp [retvalAt, probe_demo, knownAt])

/-! ## C7 — alert/error coupling -/








/-- C7 fails as stated: after a failed pull, an operator resume and a
failed redeploy — a reachable sequence of controller operations — the
state's `error` is set while *two* of the five upgrade alert codes are
registered simultaneously, because `_fail_upgrade` never clears
previously registered codes and `upgrade_resume` clears neither the
alert nor `error`. -/
theorem alert_error_coupling_counterexample :
    w_trace4.health = ["UPGRADE_FAILED_PULL", "UPGRADE_REDEPLOY_DAEMON"] ∧
    w_trace4.ctl.map (fun s => s.error.isSome) = some true := by
  constructor <;> rfl

/-- C7 amended: each failure routed through `_fail_upgrade` while an
upgrade is in progress sets `state.error` to `"<code>: <summary>"` and
registers that alert code; but the exactly-one/iff coupling of the
original claim does not hold over all reachable states — codes
accumulate across resumed failures and can outlive the state. -/
theorem fail_upgrade_sets_error_and_alert (alert_id summary : String)
    (w : World) (st : UpgradeState) (h : w.ctl = some st) :
    (fail_upgrade alert_id summary w).ctl
        = some { st with error := some (alert_id ++ ": " ++ summary), paused := true } ∧
    (fail_upgrade alert_id summary w).health.contains alert_id = true := by
  unfold fail_upgrade
  rw [h]
  simp only [save_upgrade_state]
  constructor
  · simp
  · by_cases hc : alert_id ∈ w.health
    · simp [hc]
    · simp [hc]

/-- Witness for the amended C7 at a concrete in-progress state. -/
theorem fail_upgrade_sets_error_and_alert_witness :
    (fail_upgrade "UPGRADE_FAILED_PULL" "Upgrade: failed to pull target image"
        { ctl := some st_inprog }).ctl
      = some { st_inprog with
          error := some ("UPGRADE_FAILED_PULL" ++ ": " ++ "Upgrade: failed to pull target image"),
          paused := true } ∧
    (fail_upgrade "UPGRADE_FAILED_PULL" "Upgrade: failed to pull target image"
        { ctl := some st_inprog }).health.contains "UPGRADE_FAILED_PULL" = true :=
  fail_upgrade_sets_error_and_alert "UPGRADE_FAILED_PULL"
    "Upgrade: failed to pull target image" { ctl := some st_inprog } st_inprog rfl

/-! ## C9 — at most one class batch of restarts per tick -/

theorem quietExt_refl (w : World) : QuietExt w w := ⟨[], by simp, rfl⟩

theorem quietExt_trans {w1 w2 w3 : World} (h1 : QuietExt w1 w2) (h2 : QuietExt w2 w3) :
    QuietExt w1 w3 := by
  obtain ⟨e1, ht1, ha1⟩ := h1
  obtain ⟨e2, ht2, ha2⟩ := h2
  exact ⟨e1 ++ e2, by rw [ht2, ht1, List.append_assoc],
    by simp only [List.all_append, ha1, ha2, Bool.and_self]⟩

theorem tameExt_refl (w : World) : TameExt w w := ⟨[], by simp, rfl⟩

theorem tameExt_trans {w1 w2 w3 : World} (h1 : TameExt w1 w2) (h2 : TameExt w2 w3) :
    TameExt w1 w3 := by
  obtain ⟨e1, ht1, ha1⟩ := h1
  obtain ⟨e2, ht2, ha2⟩ := h2
  exact ⟨e1 ++ e2, by rw [ht2, ht1, List.append_assoc],
    by simp only [List.all_append, ha1, ha2, Bool.and_self]⟩

theorem tameExt_quiet {w w' : World} (h : TameExt w w') : QuietExt w w' := by
  obtain ⟨ext, ht, ha⟩ := h
  refine ⟨ext, ht, ?_⟩
  rw [List.all_eq_true] at ha ⊢
  intro e he
  have h' := ha e he
  rw [Bool.and_eq_true] at h'
  exact h'.1

theorem tameExt_act {w w' : World} (c : String) (h : TameExt w w') : ActExt c w w' := by
  obtain ⟨ext, ht, ha⟩ := h
  rw [List.all_eq_true] at ha
  refine ⟨ext, ht, ?_, ?_⟩
  · rw [List.all_eq_true]
    intro e he
    have h' := ha e he
    rw [Bool.and_eq_true] at h'
    exact h'.2
  · intro e he hr
    have h' := ha e he
    rw [Bool.and_eq_true] at h'
    have hn := h'.1
    rw [hr] at hn
    cases hn

theorem actExt_refl (c : String) (w : World) : ActExt c w w :=
  ⟨[], by simp, rfl, by simp⟩

theorem actExt_trans {c : String} {w1 w2 w3 : World}
    (h1 : ActExt c w1 w2) (h2 : ActExt c w2 w3) : ActExt c w1 w3 := by
  obtain ⟨e1, ht1, ha1, hr1⟩ := h1
  obtain ⟨e2, ht2, ha2, hr2⟩ := h2
  refine ⟨e1 ++ e2, by rw [ht2, ht1, List.append_assoc],
    by simp only [List.all_append, ha1, ha2, Bool.and_self], ?_⟩
  intro e he hr
  rcases List.mem_append.mp he with he | he
  · exact hr1 e he hr
  · exact hr2 e he hr

theorem stopExt_of_quiet {c : String} {w w' : World} (h : QuietExt w w') :
    StopExt c w w' := by
  obtain ⟨ext, ht, ha⟩ := h
  exact ⟨ext, [], by simpa using ht, ha, rfl, by simp⟩

theorem stopExt_of_quiet_act {c : String} {w w1 w' : World}
    (h1 : QuietExt w w1) (h2 : ActExt c w1 w') : StopExt c w w' := by
  obtain ⟨e1, ht1, ha1⟩ := h1
  obtain ⟨e2, ht2, ha2, hr2⟩ := h2
  exact ⟨e1, e2, by rw [ht2, ht1, List.append_assoc], ha1, ha2, hr2⟩

theorem stopExt_quiet_left {c : String} {w w1 w' : World}
    (h1 : QuietExt w w1) (h2 : StopExt c w1 w') : StopExt c w w' := by
  obtain ⟨e1, ht1, ha1⟩ := h1
  obtain ⟨pre, post, ht2, hpre, hpost, hr⟩ := h2
  refine ⟨e1 ++ pre, post, ?_, ?_, hpost, hr⟩
  · rw [ht2, ht1]
    simp [List.append_assoc]
  · simp only [List.all_append, ha1, hpre, Bool.and_self]

/-- `w'` with trace `w.trace` reaches `w` tamely. -/
theorem tameExt_same_trace {w w' : World} (h : w'.trace = w.trace) : TameExt w w' :=
  ⟨[], by rw [h, List.append_nil], rfl⟩

/-- Append one tame effect to a tame extension, with arbitrary
rebuilding of the other fields. -/
theorem tameExt_push {w w' : World} (h : TameExt w w') (ctl2 : Option UpgradeState)
    (store2 : Option StateJson) (health2 : List String) (e : Effect)
    (he : (!isRedeploy e && !isClassBoundary e) = true) :
    TameExt w { ctl := ctl2, store := store2, health := health2,
                trace := w'.trace ++ [e] } := by
  obtain ⟨ext, ht, ha⟩ := h
  refine ⟨ext ++ [e], ?_, ?_⟩
  · show w'.trace ++ [e] = w.trace ++ (ext ++ [e])
    rw [ht, List.append_assoc]
  · simp only [List.all_append, ha, Bool.and_self, List.all_cons, List.all_nil,
      Bool.and_true, he]

/-- Append a list of redeploy-free effects to a quiet extension. -/
theorem quietExt_push_list {w w' : World} (h : QuietExt w w')
    (ctl2 : Option UpgradeState) (store2 : Option StateJson) (health2 : List String)
    (l : List Effect) (hl : l.all (fun e => !isRedeploy e) = true) :
    QuietExt w { ctl := ctl2, store := store2, health := health2,
                 trace := w'.trace ++ l } := by
  obtain ⟨ext, ht, ha⟩ := h
  refine ⟨ext ++ l, ?_, ?_⟩
  · show w'.trace ++ l = w.trace ++ (ext ++ l)
    rw [ht, List.append_assoc]
  · simp only [List.all_append, ha, hl, Bool.and_self]

theorem tame_save (w : World) : TameExt w (save_upgrade_state w) := by
  obtain ⟨ctl, store, health, trace⟩ := w
  cases ctl with
  | none => exact tameExt_push (tameExt_refl _) _ _ _ _ rfl
  | some st => exact tameExt_push (tameExt_refl _) _ _ _ _ rfl

theorem tame_fail (alert_id summary : String) (w : World) :
    TameExt w (fail_upgrade alert_id summary w) := by
  obtain ⟨ctl, store, health, trace⟩ := w
  cases ctl with
  | none => exact tameExt_refl _
  | some st =>
      unfold fail_upgrade
      exact tameExt_push (tameExt_trans (tameExt_same_trace rfl) (tame_save _)) _ _ _ _ rfl

theorem tame_update (env : Env) (n dn : Nat) (w : World) :
    TameExt w (update_progress env n dn w) := by
  obtain ⟨ctl, store, health, trace⟩ := w
  cases ctl with
  | none => exact tameExt_refl _
  | some st =>
      unfold update_progress
      by_cases hp : st.progress_id = ""
      · simp only [hp, if_true, if_pos]
        exact tameExt_push (tameExt_trans (tameExt_same_trace rfl) (tame_save _)) _ _ _ _ rfl
      · simp only [if_neg hp]
        exact tameExt_push (tameExt_refl _) _ _ _ _ rfl

theorem run_wait_quiet (env : Env) (d : DaemonDesc) (w : World) (known : List String) :
    QuietExt w (run_wait env d w known).1 := by
  refine quietExt_push_list (quietExt_refl w) _ _ _ _ ?_
  rw [List.all_eq_true]
  intro e he
  simp only [List.mem_flatMap, List.mem_cons] at he
  obtain ⟨j, _, he⟩ := he
  rcases he with rfl | he
  · rfl
  · split at he
    · simp only [List.mem_singleton] at he
      subst he
      rfl
    · simp at he

theorem gate_daemon_quiet (env : Env) (d : DaemonDesc) (w : World) (known : List String) :
    (match gate_daemon env d w known with
     | .error w' => QuietExt w w'
     | .ok (w', _) => QuietExt w w') := by
  unfold gate_daemon
  by_cases h1 : d.daemon_type = "osd"
  · rw [if_pos h1]
    by_cases hc : (run_wait env d w known).2.2 <;>
      simp only [hc, Bool.not_true, Bool.not_false, if_true, if_false, Bool.false_eq_true] <;>
      exact run_wait_quiet env d w known
  · rw [if_neg h1]
    by_cases h2 : d.daemon_type = "mon"
    · rw [if_pos h2]
      by_cases h3 : env.quorum_mons.length > 2
      · rw [if_pos h3]
        have hq2 : QuietExt w
            (run_wait env d { w with trace := w.trace ++ [.monCmd .quorumStatus] } known).1 :=
          quietExt_trans (quietExt_push_list (quietExt_refl w) _ _ _ [.monCmd .quorumStatus] rfl)
            (run_wait_quiet env d _ known)
        by_cases hc : (run_wait env d { w with trace := w.trace ++ [.monCmd .quorumStatus] } known).2.2 <;>
          simp only [hc, Bool.not_true, Bool.not_false, if_true, if_false, Bool.false_eq_true] <;>
          exact hq2
      · rw [if_neg h3]
        exact quietExt_push_list (quietExt_refl w) _ _ _ [.monCmd .quorumStatus] rfl
    · rw [if_neg h2]
      by_cases h4 : d.daemon_type = "mds"
      · rw [if_pos h4]
        by_cases h5 : enough_mds_for_ok_to_stop env d
        · rw [if_pos h5]
          by_cases hc : (run_wait env d w known).2.2 <;>
            simp only [hc, Bool.not_true, Bool.not_false, if_true, if_false, Bool.false_eq_true] <;>
            exact run_wait_quiet env d w known
        · rw [if_neg h5]
          exact quietExt_refl w
      · rw [if_neg h4]
        exact quietExt_refl w

/-- One partition step only adds daemons of the class being
partitioned to the upgrade lists. -/
theorem partition_step_types (env : Env) (tds : List String) (c : String)
    (p : Partition) (d : DaemonDesc)
    (h1 : ∀ q ∈ p.need_upgrade, (q : DaemonDesc × Bool).1.daemon_type = c)
    (h2 : ∀ q ∈ p.need_upgrade_deployer, (q : DaemonDesc × Bool).1.daemon_type = c) :
    (∀ q ∈ (partition_step env tds c p d).need_upgrade,
      (q : DaemonDesc × Bool).1.daemon_type = c) ∧
    (∀ q ∈ (partition_step env tds c p d).need_upgrade_deployer,
      (q : DaemonDesc × Bool).1.daemon_type = c) := by
  unfold partition_step
  by_cases hd : d.daemon_type ≠ c
  · rw [if_pos hd]
    exact ⟨h1, h2⟩
  · rw [if_neg hd]
    push_neg at hd
    dsimp only
    by_cases hA : ((anyMem (d.container_image_digests.getD []) tds
        || MONITORING_STACK_TYPES.contains d.daemon_type)
        && anyMem (d.deployed_by.getD []) tds) = true
    · rw [if_pos hA]
      exact ⟨h1, h2⟩
    · rw [if_neg hA]
      by_cases hS : env.daemon_is_self d.daemon_type d.daemon_id = true
      · rw [if_pos hS]
        exact ⟨h1, h2⟩
      · rw [if_neg hS]
        by_cases hC : (anyMem (d.container_image_digests.getD []) tds
            || MONITORING_STACK_TYPES.contains d.daemon_type) = true
        · rw [if_pos hC]
          refine ⟨h1, ?_⟩
          intro q hq
          rcases List.mem_append.mp hq with hq | hq
          · exact h2 q hq
          · simp only [List.mem_singleton] at hq
            subst hq
            exact hd
        · rw [if_neg hC]
          refine ⟨?_, h2⟩
          intro q hq
          rcases List.mem_append.mp hq with hq | hq
          · exact h1 q hq
          · simp only [List.mem_singleton] at hq
            subst hq
            exact hd

/-- All daemons in the partition's upgrade lists belong to the
partitioned class. -/
theorem partition_class_types (env : Env) (tds : List String) (c : String)
    (ds : List DaemonDesc) :
    (∀ q ∈ (partition_class env tds c ds).need_upgrade,
      (q : DaemonDesc × Bool).1.daemon_type = c) ∧
    (∀ q ∈ (partition_class env tds c ds).need_upgrade_deployer,
      (q : DaemonDesc × Bool).1.daemon_type = c) := by
  suffices h : ∀ (l : List DaemonDesc) (p : Partition),
      (∀ q ∈ p.need_upgrade, (q : DaemonDesc × Bool).1.daemon_type = c) →
      (∀ q ∈ p.need_upgrade_deployer, (q : DaemonDesc × Bool).1.daemon_type = c) →
      (∀ q ∈ (l.foldl (partition_step env tds c) p).need_upgrade,
        (q : DaemonDesc × Bool).1.daemon_type = c) ∧
      (∀ q ∈ (l.foldl (partition_step env tds c) p).need_upgrade_deployer,
        (q : DaemonDesc × Bool).1.daemon_type = c) by
    exact h ds {} (by intro q hq; cases hq) (by intro q hq; cases hq)
  intro l
  induction l with
  | nil => intro p h1 h2; exact ⟨h1, h2⟩
  | cons d rest ihl =>
      intro p h1 h2
      have hstep := partition_step_types env tds c p d h1 h2
      exact ihl _ hstep.1 hstep.2

/-- Unfolding equation for one gate-loop step. -/
theorem gate_loop_cons (env : Env) (tgt : String) (d : DaemonDesc) (flag : Bool)
    (rest : List (DaemonDesc × Bool)) (w : World) (acc : List (DaemonDesc × Bool))
    (known : List String) :
    gate_loop env tgt ((d, flag) :: rest) w acc known =
      if !truthyStr d.container_image_id && d.container_image_name = some tgt then
        gate_loop env tgt rest w acc known
      else if known ≠ [] then
        (if known.contains d.name then gate_loop env tgt rest w (acc ++ [(d, flag)]) known
         else gate_loop env tgt rest w acc known)
      else
        match gate_daemon env d w known with
        | .error w2 => .abort w2
        | .ok (w2, known2) =>
            if known2 = [] then .done w2 (acc ++ [(d, flag)]) known2
            else gate_loop env tgt rest w2 (acc ++ [(d, flag)]) known2 := rfl

/-- The gate loop only accumulates trace effects that are not
redeploys, and every daemon it selects comes from the accumulator or
the candidate list. -/
theorem gate_loop_spec (env : Env) (tgt : String) :
    ∀ (lst : List (DaemonDesc × Bool)) (w : World) (acc : List (DaemonDesc × Bool))
      (known : List String),
      (match gate_loop env tgt lst w acc known with
       | .abort w' => QuietExt w w'
       | .done w' out _ => QuietExt w w' ∧ ∀ p ∈ out, p ∈ acc ∨ p ∈ lst) := by
  intro lst
  induction lst with
  | nil =>
      intro w acc known
      exact ⟨quietExt_refl w, fun p hp => Or.inl hp⟩
  | cons hd rest ih =>
      obtain ⟨d, flag⟩ := hd
      intro w acc known
      rw [gate_loop_cons]
      by_cases hs : (!truthyStr d.container_image_id
          && decide (d.container_image_name = some tgt)) = true
      · rw [if_pos hs]
        have h := ih w acc known
        cases hg : gate_loop env tgt rest w acc known with
        | abort w2 => rw [hg] at h; exact h
        | done w2 out k2 =>
            rw [hg] at h
            obtain ⟨h1, h2⟩ := h
            exact ⟨h1, fun p hp => (h2 p hp).imp id (List.mem_cons_of_mem _)⟩
      · rw [if_neg hs]
        by_cases hk : known ≠ []
        · rw [if_pos hk]
          by_cases hm : known.contains d.name = true
          · rw [if_pos hm]
            have h := ih w (acc ++ [(d, flag)]) known
            cases hg : gate_loop env tgt rest w (acc ++ [(d, flag)]) known with
            | abort w2 => rw [hg] at h; exact h
            | done w2 out k2 =>
                rw [hg] at h
                obtain ⟨h1, h2⟩ := h
                refine ⟨h1, fun p hp => ?_⟩
                rcases h2 p hp with hp2 | hp2
                · rcases List.mem_append.mp hp2 with hp3 | hp3
                  · exact Or.inl hp3
                  · simp only [List.mem_singleton] at hp3
                    subst hp3
                    exact Or.inr (List.mem_cons_self _ _)
                · exact Or.inr (List.mem_cons_of_mem _ hp2)
          · rw [if_neg hm]
            have h := ih w acc known
            cases hg : gate_loop env tgt rest w acc known with
            | abort w2 => rw [hg] at h; exact h
            | done w2 out k2 =>
                rw [hg] at h
                obtain ⟨h1, h2⟩ := h
                exact ⟨h1, fun p hp => (h2 p hp).imp id (List.mem_cons_of_mem _)⟩
        · rw [if_neg hk]
          have hq := gate_daemon_quiet env d w known
          cases hgd : gate_daemon env d w known with
          | error w2 =>
              rw [hgd] at hq
              exact hq
          | ok pr =>
              obtain ⟨w2, known2⟩ := pr
              rw [hgd] at hq
              dsimp only at hq ⊢
              by_cases hk2 : known2 = []
              · rw [if_pos hk2]
                refine ⟨hq, fun p hp => ?_⟩
                rcases List.mem_append.mp hp with hp | hp
                · exact Or.inl hp
                · simp only [List.mem_singleton] at hp
                  subst hp
                  exact Or.inr (List.mem_cons_self _ _)
              · rw [if_neg hk2]
                have h := ih w2 (acc ++ [(d, flag)]) known2
                cases hg2 : gate_loop env tgt rest w2 (acc ++ [(d, flag)]) known2 with
                | abort w3 => rw [hg2] at h; exact quietExt_trans hq h
                | done w3 out k3 =>
                    rw [hg2] at h
                    obtain ⟨h1, h2⟩ := h
                    refine ⟨quietExt_trans hq h1, fun p hp => ?_⟩
                    rcases h2 p hp with hp2 | hp2
                    · rcases List.mem_append.mp hp2 with hp3 | hp3
                      · exact Or.inl hp3
                      · simp only [List.mem_singleton] at hp3
                        subst hp3
                        exact Or.inr (List.mem_cons_self _ _)
                    · exact Or.inr (List.mem_cons_of_mem _ hp2)

/-- Append a non-boundary effect of class `c` (or a non-redeploy) to an
action extension. -/
theorem actExt_push {c : String} {w w' : World} (h : ActExt c w w')
    (ctl2 : Option UpgradeState) (store2 : Option StateJson) (health2 : List String)
    (e : Effect) (hb : isClassBoundary e = false)
    (hr : isRedeploy e = true → redeployType e = some c) :
    ActExt c w { ctl := ctl2, store := store2, health := health2,
                 trace := w'.trace ++ [e] } := by
  obtain ⟨ext, ht, ha, hrd⟩ := h
  refine ⟨ext ++ [e], ?_, ?_, ?_⟩
  · show w'.trace ++ [e] = w.trace ++ (ext ++ [e])
    rw [ht, List.append_assoc]
  · simp only [List.all_append, ha, List.all_cons, List.all_nil, Bool.and_true,
      hb, Bool.not_false, Bool.and_self]
  · intro x hx hxr
    rcases List.mem_append.mp hx with hx | hx
    · exact hrd x hx hxr
    · simp only [List.mem_singleton] at hx
      subst hx
      exact hr hxr

/-- The per-daemon action loop produces only non-boundary effects, and
all its redeploys are of the daemon class of its input list. -/
theorem act_loop_spec (env : Env) (ctx : TickCtx) (dn : Nat) (c : String) :
    ∀ (lst : List (DaemonDesc × Bool)) (w : World),
      (∀ p ∈ lst, (p : DaemonDesc × Bool).1.daemon_type = c) →
      ActExt c w (act_loop env ctx dn lst w).1 := by
  intro lst
  induction lst with
  | nil => intro w _; exact actExt_refl c w
  | cons hd rest ih =>
      obtain ⟨d, flag⟩ := hd
      intro w hty
      have hdc : d.daemon_type = c := hty (d, flag) (List.mem_cons_self _ _)
      have hrest : ∀ p ∈ rest, (p : DaemonDesc × Bool).1.daemon_type = c :=
        fun p hp => hty p (List.mem_cons_of_mem _ hp)
      have hred : isRedeploy (Effect.redeploy d.daemon_type d.daemon_id
          (if !flag then some ctx.tgt else none)) = true →
          redeployType (Effect.redeploy d.daemon_type d.daemon_id
            (if !flag then some ctx.tgt else none)) = some c := by
        intro _
        simp only [redeployType, hdc]
      have hT2 : TameExt w
          { ctl := (update_progress env dn ctx.total w).ctl,
            store := (update_progress env dn ctx.total w).store,
            health := (update_progress env dn ctx.total w).health,
            trace := (update_progress env dn ctx.total w).trace
              ++ [Effect.inspectHost d.hostname ctx.tgt] } :=
        tameExt_push (tame_update env dn ctx.total w) _ _ _
          (Effect.inspectHost d.hostname ctx.tgt) rfl
      have hT3 : TameExt w
          { ctl := (update_progress env dn ctx.total w).ctl,
            store := (update_progress env dn ctx.total w).store,
            health := (update_progress env dn ctx.total w).health,
            trace := ((update_progress env dn ctx.total w).trace
              ++ [Effect.inspectHost d.hostname ctx.tgt])
              ++ [Effect.pullHost d.hostname ctx.tgt] } :=
        tameExt_push hT2 _ _ _ (Effect.pullHost d.hostname ctx.tgt) rfl
      simp only [act_loop]
      split
      · -- host needs the image: pull
        split
        · -- pull failed: fail and stop
          exact tameExt_act c (tameExt_trans hT3 (tame_fail _ _ _))
        · split
          · -- digest drift: replace digests, persist, stop
            split
            · refine tameExt_act c (tameExt_trans (tameExt_trans hT3 ?_) (tame_save _))
              exact tameExt_same_trace rfl
            · exact tameExt_act c hT3
          · -- image present after pull: redeploy
            split
            · -- redeploy threw
              exact actExt_trans
                (actExt_push (tameExt_act c hT3) _ _ _
                  (Effect.redeploy d.daemon_type d.daemon_id
                    (if !flag then some ctx.tgt else none)) rfl hred)
                (tameExt_act c (tame_fail _ _ _))
            · -- redeployed: continue with the rest
              exact actExt_trans
                (actExt_push (tameExt_act c hT3) _ _ _
                  (Effect.redeploy d.daemon_type d.daemon_id
                    (if !flag then some ctx.tgt else none)) rfl hred)
                (ih _ hrest)
      · -- image already on host: redeploy directly
        split
        · exact actExt_trans
            (actExt_push (tameExt_act c hT2) _ _ _
              (Effect.redeploy d.daemon_type d.daemon_id
                (if !flag then some ctx.tgt else none)) rfl hred)
            (tameExt_act c (tame_fail _ _ _))
        · exact actExt_trans
            (actExt_push (tameExt_act c hT2) _ _ _
              (Effect.redeploy d.daemon_type d.daemon_id
                (if !flag then some ctx.tgt else none)) rfl hred)
            (ih _ hrest)

theorem quietExt_same_trace {w w' : World} (h : w'.trace = w.trace) : QuietExt w w' :=
  ⟨[], by rw [h, List.append_nil], rfl⟩

/-- A fold whose every step is quiet is quiet. -/
theorem quiet_foldl {α : Type} (f : World → α → World)
    (hf : ∀ (w : World) (a : α), QuietExt w (f w a)) :
    ∀ (l : List α) (w : World), QuietExt w (l.foldl f w) := by
  intro l
  induction l with
  | nil => intro w; exact quietExt_refl w
  | cons a rest ih => intro w; exact quietExt_trans (hf w a) (ih (f w a))

/-- The MDS pre-stage filesystem loop is redeploy-free. -/
theorem mds_fs_loop_quiet (env : Env) :
    ∀ (l : List FsInfo) (w : World) (b : Bool),
      QuietExt w (mds_fs_loop env l w b).1 := by
  intro l
  induction l with
  | nil => intro w b; exact quietExt_refl w
  | cons fs rest ih =>
      intro w b
      simp only [mds_fs_loop]
      split
      · -- scale this filesystem down
        refine quietExt_trans (quietExt_trans ?_
          (quietExt_push_list (quietExt_refl _) _ _ _
            [.monCmd (.fsSet fs.fs_name "1")] rfl)) (ih _ false)
        split
        · split
          · exact quietExt_refl w
          · exact tameExt_quiet (tameExt_trans (tameExt_same_trace rfl) (tame_save _))
        · exact quietExt_refl w
      · split
        · -- waiting for fan-out to drop
          exact quietExt_trans
            (quietExt_push_list (quietExt_refl w) _ _ _ [.sleep 10] rfl) (ih _ false)
        · split
          · -- waiting for the lone MDS to become active
            exact quietExt_trans
              (quietExt_push_list (quietExt_refl w) _ _ _ [.sleep 10] rfl) (ih _ false)
          · exact ih w b

/-- The MDS pre-stage is redeploy-free. -/
theorem prepare_quiet (env : Env) (tm : String) (w : World) :
    QuietExt w (prepare_for_mds_upgrade env tm w).1 := by
  unfold prepare_for_mds_upgrade
  split
  · exact quietExt_push_list (quietExt_refl w) _ _ _ [.sleep 5] rfl
  · exact quietExt_refl w
  · refine quietExt_trans ?_ (mds_fs_loop_quiet env env.fs_map _ true)
    split
    · split
      · exact quietExt_refl w
      · exact quietExt_same_trace rfl
    · exact quietExt_refl w

/-- The MDS fan-out restore on class completion is redeploy-free. -/
theorem mds_completion_quiet (env : Env) (w : World) :
    QuietExt w (mds_completion env w) := by
  unfold mds_completion
  split
  · split
    · refine quietExt_trans (quietExt_trans ?_ (quietExt_same_trace rfl))
        (tameExt_quiet (tame_save _))
      refine quiet_foldl _ ?_ env.fs_map w
      intro wx fs
      split
      · split
        · exact quietExt_push_list (quietExt_refl wx) _ _ _ [_] rfl
        · exact quietExt_refl wx
      · exact quietExt_refl wx
    · exact quietExt_refl w
  · exact quietExt_refl w

theorem standby_cleanup_quiet (c : String) (w : World) :
    QuietExt w (standby_cleanup c w) := by
  unfold standby_cleanup
  split
  · exact quietExt_push_list (quietExt_refl w) _ _ _ [_] rfl
  · exact quietExt_refl w

theorem verify_versions_quiet (w : World) : QuietExt w (verify_versions w) :=
  quietExt_push_list (quietExt_refl w) _ _ _ [.monCmd .versions] rfl

theorem push_configs_quiet (ctx : TickCtx) (c : String) (w : World) :
    QuietExt w (push_configs ctx c w) := by
  unfold push_configs
  refine quietExt_trans ?_ (quiet_foldl _ (fun wx s =>
    quietExt_push_list (quietExt_refl wx) _ _ _ [.monCmd (.configRm s)] rfl) _ _)
  split
  · exact quietExt_push_list (quietExt_refl w) _ _ _ [_] rfl
  · exact quietExt_refl w

theorem osd_completion_quiet (env : Env) (ctx : TickCtx) (c : String) (w : World) :
    QuietExt w (osd_completion env ctx c w) := by
  unfold osd_completion
  split
  · exact quietExt_push_list (quietExt_refl w) _ _ _ [_] rfl
  · exact quietExt_refl w

/-- Class-completion actions are redeploy-free, whichever way they
end. -/
theorem completion_phase_quiet (env : Env) (ctx : TickCtx) (c : String)
    (selfFlag : Bool) (dn : Nat) (w : World) :
    (match completion_phase env ctx c selfFlag dn w with
     | .stop w' => QuietExt w w'
     | .cont w' _ => QuietExt w w') := by
  unfold completion_phase
  dsimp only
  by_cases hs : (if (decide (c = "mon") && !env.have_local_config_map) = true
      then true else selfFlag) = true
  · rw [if_pos hs]
    cases hfo : env.fail_over with
    | ok a => exact quietExt_push_list (quietExt_refl w) _ _ _ [Effect.failover] rfl
    | error e => exact tameExt_quiet (tame_fail _ _ _)
  · rw [if_neg hs]
    have hchain : QuietExt w (osd_completion env ctx c
        (push_configs ctx c (verify_versions (standby_cleanup c w)))) :=
      quietExt_trans (standby_cleanup_quiet c w)
        (quietExt_trans (verify_versions_quiet _)
          (quietExt_trans (push_configs_quiet ctx c _) (osd_completion_quiet env ctx c _)))
    show QuietExt w _
    split
    · exact quietExt_trans hchain (mds_completion_quiet env _)
    · exact hchain

/-- The final cleanup after the last class is redeploy-free. -/
theorem final_cleanup_quiet (env : Env) (ctx : TickCtx) (w : World) :
    QuietExt w (final_cleanup env ctx w) := by
  unfold final_cleanup
  dsimp only
  have hfold : QuietExt w (CEPH_UPGRADE_ORDER.foldl
      (fun (wx : World) t =>
        { wx with trace := wx.trace ++ [.monCmd (.configRm (name_to_config_section t))] })
      { w with trace := w.trace ++ [.monCmd (.setContainerImage "global" ctx.tgt)] }) :=
    quietExt_trans
      (quietExt_push_list (quietExt_refl w) _ _ _
        [.monCmd (.setContainerImage "global" ctx.tgt)] rfl)
      (quiet_foldl _ (fun wx t =>
        quietExt_push_list (quietExt_refl wx) _ _ _
          [.monCmd (.configRm (name_to_config_section t))] rfl) _ _)
  split
  next st _ =>
    split
    · exact quietExt_trans (quietExt_trans hfold
        (quietExt_push_list (quietExt_refl _) _ _ _
          [Effect.progressComplete st.progress_id] rfl))
        (quietExt_trans (quietExt_same_trace rfl) (tameExt_quiet (tame_save _)))
    · exact quietExt_trans hfold
        (quietExt_trans (quietExt_same_trace rfl) (tameExt_quiet (tame_save _)))
  next _ =>
    exact quietExt_trans hfold
      (quietExt_trans (quietExt_same_trace rfl) (tameExt_quiet (tame_save _)))

/-- One class's gate/act/complete: stopping leaves a trace whose
redeploys — all of this class — come after every boundary effect;
continuing leaves a redeploy-free trace. -/
theorem class_body_spec (env : Env) (ctx : TickCtx) (c : String) (selfFlag : Bool)
    (need : List (DaemonDesc × Bool)) (dn : Nat) (w : World)
    (hty : ∀ p ∈ need, (p : DaemonDesc × Bool).1.daemon_type = c) :
    (match class_body env ctx c selfFlag need dn w with
     | .stop w' => StopExt c w w'
     | .cont w' _ => QuietExt w w') := by
  unfold class_body
  have hg := gate_loop_spec env ctx.tgt need w [] []
  cases hgl : gate_loop env ctx.tgt need w [] [] with
  | abort w2 =>
      rw [hgl] at hg
      exact stopExt_of_quiet hg
  | done w2 out k2 =>
      rw [hgl] at hg
      obtain ⟨hq, hsub⟩ := hg
      have htyout : ∀ p ∈ out, (p : DaemonDesc × Bool).1.daemon_type = c := by
        intro p hp
        rcases hsub p hp with h | h
        · cases h
        · exact hty p h
      have hact := act_loop_spec env ctx dn c out w2 htyout
      dsimp only
      by_cases hearly : (act_loop env ctx dn out w2).2 = true
      · rw [if_pos hearly]
        exact stopExt_of_quiet_act hq hact
      · rw [if_neg hearly]
        by_cases hne : out ≠ []
        · rw [if_pos hne]
          exact stopExt_of_quiet_act hq hact
        · rw [if_neg hne]
          push_neg at hne
          subst hne
          have hact0 : act_loop env ctx dn ([] : List (DaemonDesc × Bool)) w2
              = (w2, false) := rfl
          rw [hact0]
          have hc := completion_phase_quiet env ctx c selfFlag dn w2
          cases hcp : completion_phase env ctx c selfFlag dn w2 with
          | stop w3 =>
              rw [hcp] at hc
              exact stopExt_of_quiet (quietExt_trans hq hc)
          | cont w3 dn3 =>
              rw [hcp] at hc
              exact quietExt_trans hq hc

/-- One class of the traversal, pre-stage included. -/
theorem process_class_spec (env : Env) (ctx : TickCtx) (c : String) (dn : Nat)
    (w : World) :
    (match process_class env ctx c dn w with
     | .stop w' => StopExt c w w'
     | .cont w' _ => QuietExt w w') := by
  unfold process_class
  dsimp only
  have hpt := partition_class_types env ctx.target_digests c ctx.daemons
  set P := partition_class env ctx.target_digests c ctx.daemons with hP
  set need := (if (!P.need_upgrade_self) = true
      then P.need_upgrade ++ P.need_upgrade_deployer
      else P.need_upgrade) with hNeed
  have hneed : ∀ p ∈ need, (p : DaemonDesc × Bool).1.daemon_type = c := by
    rw [hNeed]
    split
    · intro p hp
      rcases List.mem_append.mp hp with hp | hp
      · exact hpt.1 p hp
      · exact hpt.2 p hp
    · intro p hp
      exact hpt.1 p hp
  by_cases hmds : (decide (c = "mds") && !need.isEmpty) = true
  · rw [if_pos hmds]
    by_cases hr : (!(prepare_for_mds_upgrade env ctx.target_major w).2) = true
    · rw [if_pos hr]
      exact stopExt_of_quiet (prepare_quiet env ctx.target_major w)
    · rw [if_neg hr]
      have hcb := class_body_spec env ctx c P.need_upgrade_self need (dn + P.done_inc)
        (prepare_for_mds_upgrade env ctx.target_major w).1 hneed
      cases hcbr : class_body env ctx c P.need_upgrade_self need (dn + P.done_inc)
          (prepare_for_mds_upgrade env ctx.target_major w).1 with
      | stop w2 =>
          rw [hcbr] at hcb
          exact stopExt_quiet_left (prepare_quiet env ctx.target_major w) hcb
      | cont w2 dn2 =>
          rw [hcbr] at hcb
          exact quietExt_trans (prepare_quiet env ctx.target_major w) hcb
  · rw [if_neg hmds]
    have hcb := class_body_spec env ctx c P.need_upgrade_self need (dn + P.done_inc) w hneed
    cases hcbr : class_body env ctx c P.need_upgrade_self need (dn + P.done_inc) w with
    | stop w2 => rw [hcbr] at hcb; exact hcb
    | cont w2 dn2 => rw [hcbr] at hcb; exact hcb

/-- The whole class traversal stops (or finishes) with the trace of a
single class batch. -/
theorem process_classes_spec (env : Env) (ctx : TickCtx) :
    ∀ (cs : List String) (dn : Nat) (w : World),
      ∃ c, StopExt c w (process_classes env ctx cs dn w) := by
  intro cs
  induction cs with
  | nil =>
      intro dn w
      exact ⟨"", stopExt_of_quiet (final_cleanup_quiet env ctx w)⟩
  | cons c rest ih =>
      intro dn w
      simp only [process_classes]
      have hpc := process_class_spec env ctx c dn w
      cases hp : process_class env ctx c dn w with
      | stop w2 =>
          rw [hp] at hpc
          exact ⟨c, hpc⟩
      | cont w2 dn2 =>
          rw [hp] at hpc
          obtain ⟨c2, hs⟩ := ih dn2 w2
          exact ⟨c2, stopExt_quiet_left hpc hs⟩

/-- The tick body after the first pull: a redeploy-free prefix, then a
single class batch. -/
theorem do_upgrade_main_spec (env : Env) (w : World) (tgt raw : String)
    (digs : List String) :
    ∃ c, StopExt c w (do_upgrade_main env w tgt raw digs).1 := by
  unfold do_upgrade_main
  dsimp only
  have hWA : QuietExt w (if pyStartsWith raw "ceph version " = true then
      { w with ctl := w.ctl.map (fun s => { s with
          target_version := some (if pyStartsWith raw "ceph version " = true
            then (pySplitAll raw " ").getD 2 "" else raw) }) }
      else w) := by
    split
    · exact quietExt_same_trace rfl
    · exact quietExt_refl w
  cases hcv : check_target_version env (if pyStartsWith raw "ceph version " = true
      then (pySplitAll raw " ").getD 2 "" else raw) with
  | error e =>
      exact ⟨"", stopExt_of_quiet hWA⟩
  | ok r =>
      cases r with
      | some ve =>
          exact ⟨"", stopExt_of_quiet (quietExt_trans hWA (tameExt_quiet (tame_fail _ _ _)))⟩
      | none =>
          obtain ⟨c2, hs⟩ := process_classes_spec env _ CEPH_UPGRADE_ORDER 0 _
          exact ⟨c2, stopExt_quiet_left (quietExt_trans hWA
            (quietExt_push_list (quietExt_refl _) _ _ _ [.monCmd .configDump] rfl)) hs⟩

/-- `_do_upgrade` as a whole: its trace extension is a redeploy-free
prefix followed by a boundary-free suffix whose redeploys all belong to
one daemon class. -/
theorem do_upgrade_stop_ext (env : Env) (w : World) :
    ∃ c, StopExt c w (do_upgrade env w).1 := by
  unfold do_upgrade
  cases hctl : w.ctl with
  | none => exact ⟨"", stopExt_of_quiet (quietExt_refl w)⟩
  | some st0 =>
      dsimp only
      split
      · -- first pull
        cases hgi : env.get_container_image_info (target_image env st0) with
        | error e => exact ⟨"", stopExt_of_quiet (tameExt_quiet (tame_fail _ _ _))⟩
        | ok tup =>
            obtain ⟨tid, tver, tdigs⟩ := tup
            dsimp only
            by_cases hv : tver = ""
            · rw [if_pos hv]
              exact ⟨"", stopExt_of_quiet (tameExt_quiet (tame_fail _ _ _))⟩
            · rw [if_neg hv]
              obtain ⟨c2, hs⟩ := do_upgrade_main_spec env
                (save_upgrade_state { w with ctl := some { st0 with
                  target_id := some tid,
                  target_version := some ((pySplitAll tver " ").getD 2 ""),
                  target_digests := some tdigs } })
                (target_image env { st0 with
                  target_id := some tid,
                  target_version := some ((pySplitAll tver " ").getD 2 ""),
                  target_digests := some tdigs }) tver tdigs
              refine ⟨c2, stopExt_quiet_left ?_ hs⟩
              exact tameExt_quiet (tameExt_trans (tameExt_same_trace rfl) (tame_save _))
      · -- target already known
        exact do_upgrade_main_spec env w (target_image env st0)
          (st0.target_version.getD "") (st0.target_digests.getD [])

/-- A boundary-free trace trivially has no boundary effect after a
redeploy. -/
theorem noBoundary_of_all_nonboundary :
    ∀ l : List Effect, l.all (fun e => !isClassBoundary e) = true →
      noBoundaryAfterRedeploy l = true := by
  intro l
  induction l with
  | nil => intro _; rfl
  | cons e rest ih =>
      intro h
      rw [List.all_cons, Bool.and_eq_true] at h
      unfold noBoundaryAfterRedeploy
      rw [Bool.and_eq_true]
      refine ⟨?_, ih h.2⟩
      rw [h.2]
      simp

/-- Prepending redeploy-free effects preserves the
no-boundary-after-redeploy property. -/
theorem noBoundary_append :
    ∀ a b : List Effect,
      a.all (fun e => !isRedeploy e) = true →
      noBoundaryAfterRedeploy b = true →
      noBoundaryAfterRedeploy (a ++ b) = true := by
  intro a
  induction a with
  | nil => intro b _ hb; simpa using hb
  | cons e rest ih =>
      intro b ha hb
      rw [List.all_cons, Bool.and_eq_true] at ha
      show noBoundaryAfterRedeploy (e :: (rest ++ b)) = true
      unfold noBoundaryAfterRedeploy
      rw [Bool.and_eq_true]
      refine ⟨?_, ih b ha.2 hb⟩
      rw [ha.1]
      simp

/-- C9: one tick of the upgrade loop (`_do_upgrade`) restarts daemons
of at most one class — every two redeploys in the tick's trace carry
the same daemon class — and once a redeploy has happened, no
class-completion action and no later-class examination (no cluster
RPC, probe, sleep, fail-over or progress-complete) appears after it:
the loop returns right after its single class batch. -/
theorem do_upgrade_one_class_batch (env : Env) (w : World) :
    (∀ e1 ∈ (do_upgrade env w).1.trace.drop w.trace.length,
      ∀ e2 ∈ (do_upgrade env w).1.trace.drop w.trace.length,
        isRedeploy e1 = true → isRedeploy e2 = true →
        redeployType e1 = redeployType e2) ∧
    noBoundaryAfterRedeploy ((do_upgrade env w).1.trace.drop w.trace.length) = true := by
  obtain ⟨c, pre, post, htr, hpre, hpost, hty⟩ := do_upgrade_stop_ext env w
  have hdrop : (do_upgrade env w).1.trace.drop w.trace.length = pre ++ post := by
    rw [htr]
    exact List.drop_left _ _
  rw [hdrop]
  constructor
  · intro e1 h1 e2 h2 hr1 hr2
    have hmem : ∀ e ∈ pre ++ post, isRedeploy e = true → e ∈ post := by
      intro e he hre
      rcases List.mem_append.mp he with he | he
      · rw [List.all_eq_true] at hpre
        have hne := hpre e he
        rw [hre] at hne
        cases hne
      · exact he
    rw [hty e1 (hmem e1 h1 hr1) hr1, hty e2 (hmem e2 h2 hr2) hr2]
  · exact noBoundary_append pre post hpre (noBoundary_of_all_nonboundary post hpost)

/-- Witness for C9 at the concrete redeploy-failure tick of the C7
trace. -/
theorem do_upgrade_one_class_batch_witness :
    (∀ e1 ∈ (do_upgrade env_trace_redeploy w_trace3).1.trace.drop w_trace3.trace.length,
      ∀ e2 ∈ (do_upgrade env_trace_redeploy w_trace3).1.trace.drop w_trace3.trace.length,
        isRedeploy e1 = true → isRedeploy e2 = true →
        redeployType e1 = redeployType e2) ∧
    noBoundaryAfterRedeploy
      ((do_upgrade env_trace_redeploy w_trace3).1.trace.drop w_trace3.trace.length) = true :=
  do_upgrade_one_class_batch env_trace_redeploy w_trace3

end CephadmUpgrade
